import Mathlib

/-!
Verification development for the payment control store of this repository:
the key-value payment database (`KVPaymentDB` in package `channeldb`) and the
payment state machine (`MPPayment` in package `payments`), together with the
settle-info / time codec of `channeldb/mp_payment.go`.

The Go code is shallowly embedded: buckets of the transactional store become
association lists, each public operation becomes a pure function from the
store state to a result paired with the successor state (an aborted
transaction returns the unchanged state). Milli-satoshi amounts are naturals
and the source's `uint64` additions — the `SentAmt` accumulation and the
bounded-value check of `RegisterAttempt` — wrap modulo 2^64 exactly as in Go
(`wrap64`); the in-process sequence counters are modelled as unbounded
naturals (a single process would need 2^64 allocations to wrap them).
-/

/-- Payment identifiers (32-byte hashes / set ids) modelled as naturals. -/
abbrev Hash := Nat

/-- Milli-satoshi amounts (Go `lnwire.MilliSatoshi`). -/
abbrev MilliSat := Nat

/-- Payment-level failure reason codes (Go `payments.FailureReason`, a byte). -/
abbrev FailureReason := Nat

/-- Go `time.Time` as consulted by the payment codec: either the zero value
(`time.Time{}`, the only value with `IsZero()`), or a time whose `UnixNano()`
is the given integer. -/
inductive GoTime
  | zero
  | unix (n : Int)
deriving DecidableEq

/-- The closed set of semantic errors of the payments package (`part_006`),
plus the two ad-hoc errors produced inside `updateHtlcKey`
("htlcs bucket not found" and "HTLC with ID %v not registered"). -/
inductive Err
  | alreadyPaid                        -- ErrAlreadyPaid
  | paymentInFlight                    -- ErrPaymentInFlight
  | paymentExists                      -- ErrPaymentExists
  | paymentInternal                    -- ErrPaymentInternal
  | paymentNotInitiated                -- ErrPaymentNotInitiated
  | paymentAlreadySucceeded            -- ErrPaymentAlreadySucceeded
  | paymentAlreadyFailed               -- ErrPaymentAlreadyFailed
  | unknownPaymentStatus               -- ErrUnknownPaymentStatus
  | paymentTerminal                    -- ErrPaymentTerminal
  | attemptAlreadySettled              -- ErrAttemptAlreadySettled
  | attemptAlreadyFailed               -- ErrAttemptAlreadyFailed
  | valueMismatch                      -- ErrValueMismatch
  | valueExceedsAmt                    -- ErrValueExceedsAmt
  | nonMPPayment                       -- ErrNonMPPayment ("mpp-into-non-mpp")
  | mpPayment                          -- ErrMPPayment ("non-mpp-into-mpp")
  | mppRecordInBlindedPayment          -- ErrMPPRecordInBlindedPayment
  | blindedTotalMismatch               -- ErrBlindedPaymentTotalAmountMismatch
  | mppPaymentAddrMismatch             -- ErrMPPPaymentAddrMismatch
  | mppTotalAmountMismatch             -- ErrMPPTotalAmountMismatch
  | paymentPendingSettled              -- ErrPaymentPendingSettled
  | paymentPendingFailed               -- ErrPaymentPendingFailed
  | sentExceedsTotal                   -- ErrSentExceedsTotal
  | htlcsBucketNotFound                -- "htlcs bucket not found"
  | htlcNotRegistered                  -- "HTLC with ID %v not registered"
deriving DecidableEq

instance {ε α : Type} [DecidableEq ε] [DecidableEq α] : DecidableEq (Except ε α) :=
  fun a b =>
    match a, b with
    | .error e, .error f =>
      if h : e = f then .isTrue (by rw [h])
      else .isFalse (by intro hh; injection hh; exact h (by assumption))
    | .error _, .ok _ => .isFalse (by intro h; exact Except.noConfusion h)
    | .ok _, .error _ => .isFalse (by intro h; exact Except.noConfusion h)
    | .ok a, .ok b =>
      if h : a = b then .isTrue (by rw [h])
      else .isFalse (by intro hh; injection hh; exact h (by assumption))

/-- Go `payments.PaymentStatus` (a closed status enum in this model; the Go
`default:` branches that guard against unknown numeric statuses are
unreachable here). -/
inductive PaymentStatus
  | initiated
  | inFlight
  | succeeded
  | failed
deriving DecidableEq

/-- The final hop's MPP record (`payment_address`, `total_msat`). -/
structure MPPRecord where
  paymentAddr : Nat
  totalMsat : MilliSat
deriving DecidableEq

/-- A route hop; only the final hop's fields are consulted by this core. -/
structure Hop where
  amtToForward : MilliSat
  totalAmtMsat : MilliSat
  encryptedData : List Nat
  mpp : Option MPPRecord
deriving DecidableEq

/-- Modelled from the spec: of the route, only the final hop's records
(MPP, blinded data, total amount) and the `ReceiverAmt()` / `TotalFees()`
accessors are consulted by this core (spec §6, "Route/MPP encoding"); the
route is abbreviated to its final hop plus the total amount leaving the
sender, with `ReceiverAmt` the final hop's amount to forward and `TotalFees`
the difference. -/
structure Route where
  totalAmount : MilliSat
  finalHop : Hop
deriving DecidableEq

def Route.receiverAmt (r : Route) : MilliSat := r.finalHop.amtToForward

def Route.totalFees (r : Route) : MilliSat := r.totalAmount - r.receiverAmt

/-- Go `payments.HTLCAttemptInfo` (the session key is kept as raw bytes,
mirroring the lazily-parsed representation). -/
structure HTLCAttemptInfo where
  attemptID : Nat
  sessionKey : List Nat
  route : Route
  attemptTime : GoTime
  hash : Option Hash
deriving DecidableEq

/-- Go `payments.HTLCSettleInfo` (32-byte preimage plus settle time). -/
structure HTLCSettleInfo where
  preimage : List Nat
  settleTime : GoTime
deriving DecidableEq

/-- Go `payments.HTLCFailInfo`. -/
structure HTLCFailInfo where
  failTime : GoTime
  message : List Nat
  reason : Nat
  failureSourceIndex : Nat
deriving DecidableEq

/-- Go `payments.HTLCAttempt`: attempt info plus at most one of settle/fail. -/
structure HTLCAttempt where
  info : HTLCAttemptInfo
  settle : Option HTLCSettleInfo
  failure : Option HTLCFailInfo
deriving DecidableEq

/-- Go `payments.PaymentCreationInfo`. -/
structure PaymentCreationInfo where
  paymentIdentifier : Hash
  value : MilliSat
  creationTime : GoTime
  paymentRequest : List Nat
  firstHopCustomRecords : List (Nat × List Nat)
deriving DecidableEq

/-- Go `payments.MPPaymentState`: the derived in-memory state of a payment. -/
structure MPPaymentState where
  numAttemptsInFlight : Nat
  remainingAmt : MilliSat
  feesPaid : MilliSat
  hasSettledHTLC : Bool
  paymentFailed : Bool
deriving DecidableEq

/-- Go `payments.MPPayment`: a payment snapshot with derived state/status. -/
structure MPPayment where
  sequenceNum : Nat
  info : PaymentCreationInfo
  htlcs : List HTLCAttempt
  failureReason : Option FailureReason
  status : PaymentStatus
  state : MPPaymentState
deriving DecidableEq

/-- Go `uint64` addition semantics: reduction modulo 2^64, applied wherever
the source adds `lnwire.MilliSatoshi` values. -/
def wrap64 (n : Nat) : Nat := n % 18446744073709551616

/-- Go `MPPayment.SentAmt` (part_006): the summed receiver amounts and fees of
all HTLCs that are not failed (settled or still in flight); each `+=` is a
`uint64` addition and therefore wraps modulo 2^64. -/
def sentAmtFees : List HTLCAttempt → MilliSat × MilliSat
  | [] => (0, 0)
  | h :: rest =>
    let acc := sentAmtFees rest
    if h.failure.isSome then acc
    else (wrap64 (h.info.route.receiverAmt + acc.1),
          wrap64 (h.info.route.totalFees + acc.2))

/-- Go `MPPayment.InFlightHTLCs` (part_006): HTLCs neither settled nor failed. -/
def inFlightHTLCs (htlcs : List HTLCAttempt) : List HTLCAttempt :=
  htlcs.filter (fun h => h.settle.isNone && h.failure.isNone)

/-- HTLCs that are not failed (settled or in flight); used to state the
bounded-value invariant I3/P6. -/
def nonFailedHTLCs (htlcs : List HTLCAttempt) : List HTLCAttempt :=
  htlcs.filter (fun h => h.failure.isNone)

/-- Go `MPPayment.TerminalInfo` (part_006): the first settled HTLC if any
(with no failure reason), otherwise the payment-level failure reason. -/
def terminalInfo (htlcs : List HTLCAttempt) (reason : Option FailureReason) :
    Option HTLCAttempt × Option FailureReason :=
  match htlcs.find? (fun h => h.settle.isSome) with
  | some h => (some h, none)
  | none => (none, reason)

/-- Modelled from the spec: `decidePaymentStatus` (called by `setState` in
part_006 but not itself in the excerpt) derives the status from the HTLC set
and the failure reason per spec §4.1: `InFlight` if any non-terminal HTLC
exists, else `Succeeded` if any settled HTLC exists, else `Failed` if a
failure reason is recorded, else `Initiated`. -/
def decidePaymentStatus (htlcs : List HTLCAttempt) (reason : Option FailureReason) :
    PaymentStatus :=
  if htlcs.any (fun h => h.settle.isNone && h.failure.isNone) then .inFlight
  else if htlcs.any (fun h => h.settle.isSome) then .succeeded
  else if reason.isSome then .failed
  else .initiated

/-- Go `MPPayment.setState` (part_006) as a constructor: computes sent
amount/fees, rejects `sent > total` with `ErrSentExceedsTotal`, derives
terminal info, status and the `MPPaymentState`. -/
def setPaymentState (seq : Nat) (info : PaymentCreationInfo)
    (htlcs : List HTLCAttempt) (reason : Option FailureReason) :
    Except Err MPPayment :=
  let sentFees := sentAmtFees htlcs
  if info.value < sentFees.1 then .error .sentExceedsTotal
  else
    let ti := terminalInfo htlcs reason
    .ok { sequenceNum := seq, info := info, htlcs := htlcs, failureReason := reason,
          status := decidePaymentStatus htlcs reason,
          state := { numAttemptsInFlight := (inFlightHTLCs htlcs).length,
                     remainingAmt := info.value - sentFees.1,
                     feesPaid := sentFees.2,
                     hasSettledHTLC := ti.1.isSome,
                     paymentFailed := ti.2.isSome } }

/-- Modelled from the spec: `PaymentStatus.Updatable` (declared outside the
excerpt) succeeds iff the status is `Initiated` or `InFlight`; a succeeded
payment answers `payment-already-succeeded`, a failed one
`payment-already-failed` (spec §4.1 `updatable`, §7). -/
def PaymentStatus.Updatable : PaymentStatus → Except Err Unit
  | .initiated => .ok ()
  | .inFlight => .ok ()
  | .succeeded => .error .paymentAlreadySucceeded
  | .failed => .error .paymentAlreadyFailed

/-- Modelled from the spec: `PaymentStatus.Initializable` (declared outside
the excerpt) succeeds iff the status is `Failed`; `Initiated` answers the
already-in-flight error, `InFlight` the already-exists error and `Succeeded`
the already-paid error (spec §4.1 `initializable`). -/
def PaymentStatus.Initializable : PaymentStatus → Except Err Unit
  | .initiated => .error .paymentInFlight
  | .inFlight => .error .paymentExists
  | .succeeded => .error .alreadyPaid
  | .failed => .ok ()

/-- Go `MPPayment.Registrable` (part_006): updatable, and when in flight
neither a settled HTLC nor a recorded failure reason. -/
def MPPayment.Registrable (m : MPPayment) : Except Err Unit :=
  match m.status.Updatable with
  | .error e => .error e
  | .ok _ =>
    if m.status ≠ PaymentStatus.inFlight then .ok ()
    else if m.state.hasSettledHTLC then .error .paymentPendingSettled
    else if m.state.paymentFailed then .error .paymentPendingFailed
    else .ok ()

/-- Go `MPPayment.Terminated` (part_006). -/
def MPPayment.Terminated (m : MPPayment) : Bool :=
  match m.status.Updatable with
  | .error _ => true
  | .ok _ => false

/-- Go `MPPayment.NeedWaitAttempts` (part_006), branch for branch (the Go
`default:` branches are unreachable on the closed status enum). -/
def MPPayment.NeedWaitAttempts (m : MPPayment) : Except Err Bool :=
  if m.state.remainingAmt ≠ 0 then
    match m.status with
    | .initiated => .ok false
    | .inFlight =>
      if m.state.hasSettledHTLC then .ok true
      else if m.state.paymentFailed then .ok true
      else .ok false
    | .succeeded => .error .paymentInternal
    | .failed => .ok false
  else
    match m.status with
    | .initiated => .error .paymentInternal
    | .inFlight => .ok true
    | .succeeded => .ok false
    | .failed => .error .paymentInternal

/-- Go `MPPayment.AllowMoreAttempts` (part_006). -/
def MPPayment.AllowMoreAttempts (m : MPPayment) : Except Err Bool :=
  if m.state.remainingAmt = 0 then
    if m.status = PaymentStatus.initiated then .error .paymentInternal
    else .ok false
  else if m.status = PaymentStatus.succeeded then .error .paymentInternal
  else
    match m.Registrable with
    | .error _ => .ok false
    | .ok _ => .ok true

/-! ## Association lists: the bucket contents of the transactional store -/

def alookup {α : Type} (k : Nat) : List (Nat × α) → Option α
  | [] => none
  | kv :: rest => if kv.1 = k then some kv.2 else alookup k rest

def aput {α : Type} (k : Nat) (v : α) : List (Nat × α) → List (Nat × α)
  | [] => [(k, v)]
  | kv :: rest => if kv.1 = k then (k, v) :: rest else kv :: aput k v rest

def aerase {α : Type} (k : Nat) : List (Nat × α) → List (Nat × α)
  | [] => []
  | kv :: rest => if kv.1 = k then rest else kv :: aerase k rest

/-- The nested `htlcs` bucket of a payment: per-attempt-id keys
`attempt-info/<id>`, `settle-info/<id>`, `fail-info/<id>` (spec §6 layout). -/
structure HtlcsBucket where
  attemptInfo : List (Nat × HTLCAttemptInfo)
  settleInfo : List (Nat × HTLCSettleInfo)
  failInfo : List (Nat × HTLCFailInfo)
deriving DecidableEq

/-- A per-identifier payment bucket: keys `creation-info`, `sequence`,
`fail-info` and the nested `htlcs` bucket (spec §6 layout). -/
structure PaymentBucket where
  creationInfo : Option PaymentCreationInfo
  sequence : Option Nat
  failInfo : Option FailureReason
  htlcs : Option HtlcsBucket
deriving DecidableEq

def emptyBucket : PaymentBucket :=
  { creationInfo := none, sequence := none, failInfo := none, htlcs := none }

def emptyHtlcsBucket : HtlcsBucket :=
  { attemptInfo := [], settleInfo := [], failInfo := [] }

/-- The persisted store: the `payments` top scope keyed by identifier, the
flat `payments-index` scope keyed by sequence number, and the top-scope
sequence counter holding the pre-allocated upper bound. -/
structure DBState where
  payments : List (Nat × PaymentBucket)
  index : List (Nat × Hash)
  seqCounter : Nat
deriving DecidableEq

/-- Go `channeldb.KVPaymentDB` (part_000): the in-process allocator cache
(`currPaymentSeq`, `storedPaymentSeq`) plus the persisted store. -/
structure KVPaymentDB where
  currPaymentSeq : Nat
  storedPaymentSeq : Nat
  db : DBState
deriving DecidableEq

/-- The HTLC attempts recorded in an htlcs bucket, each joined with its
settle/fail info by attempt id (as `fetchPayment`'s bucket scan does). -/
def bucketAttempts (hb : HtlcsBucket) : List HTLCAttempt :=
  hb.attemptInfo.map (fun kv =>
    { info := kv.2, settle := alookup kv.1 hb.settleInfo,
      failure := alookup kv.1 hb.failInfo })

def bucketHTLCList (b : PaymentBucket) : List HTLCAttempt :=
  match b.htlcs with
  | none => []
  | some hb => bucketAttempts hb

/-- Modelled from the spec: channeldb's `fetchPayment` (called throughout
part_000 but declared outside the excerpt) reads creation info, sequence,
failure reason and the HTLC records from the bucket and derives the
state/status snapshot via `setState` (spec §2 data flow, §4.1); a bucket
without creation info is not an initiated payment. -/
def fetchPayment (b : PaymentBucket) : Except Err MPPayment :=
  match b.creationInfo with
  | none => .error .paymentNotInitiated
  | some info => setPaymentState (b.sequence.getD 0) info (bucketHTLCList b) b.failInfo

/-- Go `fetchPaymentStatus` (part_000): `ErrPaymentNotInitiated` without
creation info, otherwise the fetched payment's status. -/
def fetchPaymentStatus (b : PaymentBucket) : Except Err PaymentStatus :=
  if b.creationInfo.isNone then .error .paymentNotInitiated
  else
    match fetchPayment b with
    | .error e => .error e
    | .ok pm => .ok pm.status

/-- Go `paymentSeqBlockSize` (part_000). -/
def paymentSeqBlockSize : Nat := 1000

/-- Go `KVPaymentDB.nextPaymentSequence` (part_000): refresh the block bound
when the cached counter reaches the cached stored bound (reading the
persisted bound, persisting bound+1000, lazily initializing the counter on
the first call), then increment and return the counter. -/
def nextPaymentSequence (p : KVPaymentDB) : Nat × KVPaymentDB :=
  let p1 :=
    if p.currPaymentSeq = p.storedPaymentSeq then
      let currSeq := p.db.seqCounter
      let newUpperBound := currSeq + paymentSeqBlockSize
      { p with
        db := { p.db with seqCounter := newUpperBound },
        currPaymentSeq := if p.currPaymentSeq = 0 then currSeq else p.currPaymentSeq,
        storedPaymentSeq := newUpperBound }
    else p
  (p1.currPaymentSeq + 1, { p1 with currPaymentSeq := p1.currPaymentSeq + 1 })

/-- Go `KVPaymentDB.InitPayment` (part_000): allocate a sequence number, then
in one transaction check `Initializable` on any existing payment, erase the
stale index entry, write the new index entry, sequence and creation info, and
delete lingering HTLCs and failure info. An `Initializable` violation commits
no change to the payment record; any other fetch error aborts the
transaction. -/
def InitPayment (p : KVPaymentDB) (h : Hash) (info : PaymentCreationInfo) :
    Except Err Unit × KVPaymentDB :=
  let alloc := nextPaymentSequence p
  let seqNum := alloc.1
  let p1 := alloc.2
  let bucket := (alookup h p1.db.payments).getD emptyBucket
  let proceed : Except Err Unit × KVPaymentDB :=
    let index1 :=
      match bucket.sequence with
      | some sb => aerase sb p1.db.index
      | none => p1.db.index
    let index2 := aput seqNum info.paymentIdentifier index1
    let newBucket : PaymentBucket :=
      { creationInfo := some info, sequence := some seqNum,
        failInfo := none, htlcs := none }
    let db2 : DBState :=
      { p1.db with index := index2, payments := aput h newBucket p1.db.payments }
    (.ok (), { p1 with db := db2 })
  match fetchPaymentStatus bucket with
  | .ok st =>
    match st.Initializable with
    | .error e => (.error e, p1)
    | .ok _ => proceed
  | .error e =>
    if e = Err.paymentNotInitiated then proceed else (.error e, p1)

/-- The common tail of the mutating transactions: write the updated bucket
under the identifier and return the refreshed payment; a fetch error aborts
the transaction, leaving the store unchanged. -/
def commitFetch (p : KVPaymentDB) (h : Hash) (bucket' : PaymentBucket) :
    Except Err MPPayment × KVPaymentDB :=
  match fetchPayment bucket' with
  | .error e => (.error e, p)
  | .ok pm' =>
    (.ok pm', { p with db := { p.db with payments := aput h bucket' p.db.payments } })

/-- The per-existing-shard compatibility check of `RegisterAttempt`'s loop
over `payment.InFlightHTLCs()` (part_000). -/
def shardCheck (isBlinded : Bool) (newHop : Hop) (a : HTLCAttempt) : Except Err Unit :=
  let hMpp := a.info.route.finalHop.mpp
  if isBlinded && hMpp.isSome then .error .mppRecordInBlindedPayment
  else if isBlinded then
    if newHop.totalAmtMsat ≠ a.info.route.finalHop.totalAmtMsat then
      .error .blindedTotalMismatch
    else .ok ()
  else
    match newHop.mpp, hMpp with
    | none, some _ => .error .mpPayment
    | some _, none => .error .nonMPPayment
    | none, none => .ok ()
    | some m, some hm =>
      if m.paymentAddr ≠ hm.paymentAddr then .error .mppPaymentAddrMismatch
      else if m.totalMsat ≠ hm.totalMsat then .error .mppTotalAmountMismatch
      else .ok ()

/-- The `RegisterAttempt` shard loop: first failing check wins. -/
def checkShards (isBlinded : Bool) (newHop : Hop) : List HTLCAttempt → Except Err Unit
  | [] => .ok ()
  | a :: rest =>
    match shardCheck isBlinded newHop a with
    | .error e => .error e
    | .ok _ => checkShards isBlinded newHop rest

/-- Go `KVPaymentDB.RegisterAttempt` (part_000): fetch the payment, check
`Registrable`, apply the blinded/MPP shard-compatibility rules against the
in-flight shards, the non-MPP exact-value rule, and the bounded-value rule,
then persist the attempt info under its id and return the refreshed payment.
Any error aborts the transaction, leaving the store unchanged. -/
def RegisterAttempt (p : KVPaymentDB) (h : Hash) (attempt : HTLCAttemptInfo) :
    Except Err MPPayment × KVPaymentDB :=
  match alookup h p.db.payments with
  | none => (.error .paymentNotInitiated, p)
  | some bucket =>
    match fetchPayment bucket with
    | .error e => (.error e, p)
    | .ok payment =>
      match payment.Registrable with
      | .error e => (.error e, p)
      | .ok _ =>
        let isBlinded := !attempt.route.finalHop.encryptedData.isEmpty
        let mpp := attempt.route.finalHop.mpp
        if isBlinded && mpp.isSome then (.error .mppRecordInBlindedPayment, p)
        else
          match checkShards isBlinded attempt.route.finalHop (inFlightHTLCs payment.htlcs) with
          | .error e => (.error e, p)
          | .ok _ =>
            let amt := attempt.route.receiverAmt
            if !isBlinded && mpp.isNone && (amt != payment.info.value) then
              (.error .valueMismatch, p)
            else
              let sent := (sentAmtFees payment.htlcs).1
              if payment.info.value < wrap64 (sent + amt) then
                (.error .valueExceedsAmt, p)
              else
                let hb := bucket.htlcs.getD emptyHtlcsBucket
                let hb' := { hb with attemptInfo := aput attempt.attemptID attempt hb.attemptInfo }
                commitFetch p h { bucket with htlcs := some hb' }

/-- The value written by `updateHtlcKey`: settle info or fail info. -/
inductive HtlcUpdate
  | settle (s : HTLCSettleInfo)
  | fail (f : HTLCFailInfo)
deriving DecidableEq

/-- Go `KVPaymentDB.updateHtlcKey` (part_000): fetch the payment, require
`Updatable`, require the htlcs bucket and the registered attempt, reject
already-failed then already-settled shards, write the key and return the
refreshed payment. Any error aborts the transaction. -/
def updateHtlcKey (p : KVPaymentDB) (h : Hash) (attemptID : Nat) (upd : HtlcUpdate) :
    Except Err MPPayment × KVPaymentDB :=
  match alookup h p.db.payments with
  | none => (.error .paymentNotInitiated, p)
  | some bucket =>
    match fetchPayment bucket with
    | .error e => (.error e, p)
    | .ok pm =>
      match pm.status.Updatable with
      | .error e => (.error e, p)
      | .ok _ =>
        match bucket.htlcs with
        | none => (.error .htlcsBucketNotFound, p)
        | some hb =>
          if (alookup attemptID hb.attemptInfo).isNone then
            (.error .htlcNotRegistered, p)
          else if (alookup attemptID hb.failInfo).isSome then
            (.error .attemptAlreadyFailed, p)
          else if (alookup attemptID hb.settleInfo).isSome then
            (.error .attemptAlreadySettled, p)
          else
            let hb' :=
              match upd with
              | .settle s => { hb with settleInfo := aput attemptID s hb.settleInfo }
              | .fail f => { hb with failInfo := aput attemptID f hb.failInfo }
            commitFetch p h { bucket with htlcs := some hb' }

/-- Go `KVPaymentDB.SettleAttempt` (part_000). -/
def SettleAttempt (p : KVPaymentDB) (h : Hash) (attemptID : Nat)
    (s : HTLCSettleInfo) : Except Err MPPayment × KVPaymentDB :=
  updateHtlcKey p h attemptID (.settle s)

/-- Go `KVPaymentDB.FailAttempt` (part_000). -/
def FailAttempt (p : KVPaymentDB) (h : Hash) (attemptID : Nat)
    (f : HTLCFailInfo) : Except Err MPPayment × KVPaymentDB :=
  updateHtlcKey p h attemptID (.fail f)

/-- Go `KVPaymentDB.FailPayment` (part_000): if the payment is known, write
the failure reason (regardless of the current status) and return the
refreshed payment; an unknown payment answers `ErrPaymentNotInitiated`
without a state change. -/
def FailPayment (p : KVPaymentDB) (h : Hash) (reason : FailureReason) :
    Except Err MPPayment × KVPaymentDB :=
  match alookup h p.db.payments with
  | none => (.error .paymentNotInitiated, p)
  | some bucket =>
    match fetchPaymentStatus bucket with
    | .error e => (.error e, p)
    | .ok _ => commitFetch p h { bucket with failInfo := some reason }

/-- One mutating store operation (deletion, which only removes records, is
out of scope of the bounded-value invariant). -/
inductive Op
  | initOp (h : Hash) (info : PaymentCreationInfo)
  | registerOp (h : Hash) (a : HTLCAttemptInfo)
  | settleOp (h : Hash) (id : Nat) (s : HTLCSettleInfo)
  | failAttemptOp (h : Hash) (id : Nat) (f : HTLCFailInfo)
  | failPaymentOp (h : Hash) (r : FailureReason)

/-- The store state after one committed (or aborted) operation. -/
def applyOp (p : KVPaymentDB) : Op → KVPaymentDB
  | .initOp h info => (InitPayment p h info).2
  | .registerOp h a => (RegisterAttempt p h a).2
  | .settleOp h id s => (SettleAttempt p h id s).2
  | .failAttemptOp h id f => (FailAttempt p h id f).2
  | .failPaymentOp h r => (FailPayment p h r).2

/-- Invariant I3/P6 for one bucket: the summed receiver amounts of the
non-failed HTLCs, as the code computes them (`SentAmt`, i.e. wrapped modulo
2^64), do not exceed the payment's value. -/
def BucketOK (b : PaymentBucket) : Bool :=
  match b.creationInfo with
  | none => true
  | some info => decide ((sentAmtFees (bucketHTLCList b)).1 ≤ info.value)

/-- Invariant I3/P6 over the whole store. -/
abbrev InvDB (db : DBState) : Prop := ∀ kv ∈ db.payments, BucketOK kv.2 = true

/-! ## Sequence-allocation traces -/

/-- Allocator state after `n` calls to `nextPaymentSequence`. -/
def allocIter (p : KVPaymentDB) : Nat → KVPaymentDB
  | 0 => p
  | n + 1 => (nextPaymentSequence (allocIter p n)).2

/-- The sequence number handed out by call `n+1` of `nextPaymentSequence`. -/
def allocOut (p : KVPaymentDB) (n : Nat) : Nat :=
  (nextPaymentSequence (allocIter p n)).1

/-- Store state after a sequence of `InitPayment` calls. -/
def initCalls (p : KVPaymentDB) : List (Hash × PaymentCreationInfo) → KVPaymentDB
  | [] => p
  | c :: cs => initCalls (InitPayment p c.1 c.2).2 cs

/-- The sequence numbers consumed by a sequence of `InitPayment` calls. -/
def initSeqs (p : KVPaymentDB) : List (Hash × PaymentCreationInfo) → List Nat
  | [] => []
  | c :: cs => (nextPaymentSequence p).1 :: initSeqs (InitPayment p c.1 c.2).2 cs

/-! ## Codec: settle info and times (channeldb/mp_payment.go) -/

/-- Big-endian bytes of a `uint64` (Go `byteOrder.PutUint64`). -/
def u64ToBytesBE (n : Nat) : List Nat :=
  [n / 72057594037927936 % 256, n / 281474976710656 % 256,
   n / 1099511627776 % 256, n / 4294967296 % 256,
   n / 16777216 % 256, n / 65536 % 256, n / 256 % 256, n % 256]

/-- Go `byteOrder.Uint64` on exactly eight big-endian bytes. -/
def bytesToU64BE : List Nat → Nat
  | [b0, b1, b2, b3, b4, b5, b6, b7] =>
    ((((((b0 * 256 + b1) * 256 + b2) * 256 + b3) * 256 + b4) * 256 + b5) * 256 + b6) * 256 + b7
  | _ => 0

/-- The `uint64(unixNano)` written by `serializeTime`: zero for the zero
time, else the two's-complement image of `UnixNano()`. -/
def goUnixNanoU64 : GoTime → Nat
  | .zero => 0
  | .unix n => (n % (18446744073709551616 : Int)).toNat

/-- Go `int64(v)` for a `uint64` value `v`. -/
def u64ToInt64 (v : Nat) : Int :=
  if v < 9223372036854775808 then (v : Int) else (v : Int) - 18446744073709551616

/-- Go `serializeTime` (mp_payment.go): eight big-endian bytes of the unix
nanoseconds, with zero written for the zero time. -/
def serializeTime (t : GoTime) : List Nat :=
  u64ToBytesBE (goUnixNanoU64 t)

/-- Go `deserializeTime` (mp_payment.go): read eight bytes; zero decodes to
the zero time, anything else to `time.Unix(0, int64(v))`. Returns the decoded
time and the remaining bytes, or `none` on a short read. -/
def deserializeTime (l : List Nat) : Option (GoTime × List Nat) :=
  if 8 ≤ l.length then
    let v := bytesToU64BE (l.take 8)
    some (if v = 0 then GoTime.zero else GoTime.unix (u64ToInt64 v), l.drop 8)
  else none

/-- Go `serializeHTLCSettleInfo` (mp_payment.go): the 32 preimage bytes
followed by the serialized settle time. -/
def serializeHTLCSettleInfo (s : HTLCSettleInfo) : List Nat :=
  s.preimage ++ serializeTime s.settleTime

/-- Go `deserializeHTLCSettleInfo` (mp_payment.go): read the 32 preimage
bytes, then the settle time; returns the value and the remaining bytes. -/
def deserializeHTLCSettleInfo (l : List Nat) : Option (HTLCSettleInfo × List Nat) :=
  if 32 ≤ l.length then
    match deserializeTime (l.drop 32) with
    | some (t, rest) => some ({ preimage := l.take 32, settleTime := t }, rest)
    | none => none
  else none

/-- A time the codec round-trips: the zero time, or a time whose
`UnixNano()` is a nonzero value representable in an `int64` (the Unix epoch
itself, `UnixNano() = 0`, collides with the zero-time encoding). -/
def timeRoundTrippable : GoTime → Bool
  | .zero => true
  | .unix n =>
    (n != 0) && decide (-9223372036854775808 ≤ n) && decide (n < 9223372036854775808)

/-- The allocator-relevant components of the store state: the cached counter,
the cached stored bound and the persisted upper bound. -/
def allocSig (p : KVPaymentDB) : Nat × Nat × Nat :=
  (p.currPaymentSeq, p.storedPaymentSeq, p.db.seqCounter)

/-! ## Concrete stores used by witnesses and counterexamples -/

/-- A creation info for a payment of value 100 to identifier 7. -/
def exInfo : PaymentCreationInfo :=
  { paymentIdentifier := 7, value := 100, creationTime := .zero,
    paymentRequest := [], firstHopCustomRecords := [] }

def exHop (amt total : MilliSat) (enc : List Nat) (mpp : Option MPPRecord) : Hop :=
  { amtToForward := amt, totalAmtMsat := total, encryptedData := enc, mpp := mpp }

/-- A non-blinded attempt paying `amt` to the receiver with the given MPP
record. -/
def exAtt (id amt : Nat) (mpp : Option MPPRecord) : HTLCAttemptInfo :=
  { attemptID := id, sessionKey := [],
    route := { totalAmount := amt, finalHop := exHop amt 0 [] mpp },
    attemptTime := .zero, hash := none }

def exMPPA : MPPRecord := { paymentAddr := 1, totalMsat := 100 }

def exMPPB : MPPRecord := { paymentAddr := 2, totalMsat := 100 }

def exSettle : HTLCSettleInfo := { preimage := [], settleTime := .zero }

def exFail : HTLCFailInfo :=
  { failTime := .zero, message := [], reason := 0, failureSourceIndex := 0 }

/-- A store holding exactly the bucket `b` under identifier 7, with the
allocator mid-block. -/
def mkStore (b : PaymentBucket) : KVPaymentDB :=
  { currPaymentSeq := 1, storedPaymentSeq := 1000,
    db := { payments := [(7, b)], index := [(1, 7)], seqCounter := 1000 } }

/-- Initiated payment: creation info, no HTLCs, no failure reason. -/
def exBucketInitiated : PaymentBucket :=
  { creationInfo := some exInfo, sequence := some 1, failInfo := none, htlcs := none }

/-- One in-flight MPP shard of 60 (address 1, total 100). -/
def exBucketMPP : PaymentBucket :=
  { creationInfo := some exInfo, sequence := some 1, failInfo := none,
    htlcs := some { attemptInfo := [(1, exAtt 1 60 (some exMPPA))],
                    settleInfo := [], failInfo := [] } }

/-- Fully settled payment: one shard of 100, settled. -/
def exBucketSettled : PaymentBucket :=
  { creationInfo := some exInfo, sequence := some 1, failInfo := none,
    htlcs := some { attemptInfo := [(1, exAtt 1 100 none)],
                    settleInfo := [(1, exSettle)], failInfo := [] } }

/-- One in-flight non-MPP shard of 100. -/
def exBucketInFlight : PaymentBucket :=
  { creationInfo := some exInfo, sequence := some 1, failInfo := none,
    htlcs := some { attemptInfo := [(1, exAtt 1 100 none)],
                    settleInfo := [], failInfo := [] } }

/-- Failed payment: one failed shard plus a recorded failure reason. -/
def exBucketFailed : PaymentBucket :=
  { creationInfo := some exInfo, sequence := some 1, failInfo := some 0,
    htlcs := some { attemptInfo := [(1, exAtt 1 100 none)],
                    settleInfo := [], failInfo := [(1, exFail)] } }

def defaultMPPayment : MPPayment :=
  { sequenceNum := 0, info := exInfo, htlcs := [], failureReason := none,
    status := .initiated,
    state := { numAttemptsInFlight := 0, remainingAmt := 0, feesPaid := 0,
               hasSettledHTLC := false, paymentFailed := false } }

/-- The payment snapshot fetched from a bucket (defaulting on error); used to
name concrete snapshots in witnesses. -/
def exPmOf (b : PaymentBucket) : MPPayment :=
  match fetchPayment b with
  | .ok pm => pm
  | .error _ => defaultMPPayment

/-- A store with a cold allocator cache (fresh process) over a database whose
persisted sequence bound is 5. -/
def exColdStore : KVPaymentDB :=
  { currPaymentSeq := 0, storedPaymentSeq := 0,
    db := { payments := [], index := [], seqCounter := 5 } }

/-- A settle info whose settle time is the Unix epoch (`UnixNano() = 0` but
not the zero time). -/
def epochSettle : HTLCSettleInfo :=
  { preimage := List.replicate 32 0, settleTime := .unix 0 }

/-- A settle info with a 32-byte preimage and a realistic settle time. -/
def exSettle32 : HTLCSettleInfo :=
  { preimage := List.replicate 32 7, settleTime := .unix 1700000000000000000 }

/-- A matching-MPP attempt whose receiver amount is 2^64 - 30 msat: against
a value-100 payment with 60 msat in flight, Go's `uint64` check
`sentAmt+amt > value` wraps to 30 and accepts it. -/
def exAttHuge : HTLCAttemptInfo := exAtt 2 18446744073709551586 (some exMPPA)

/-- A payment whose only attempt has already failed, with no payment-level
failure reason (derived status `Initiated`, so still updatable). -/
def exBucketFailedAttempt : PaymentBucket :=
  { creationInfo := some exInfo, sequence := some 1, failInfo := none,
    htlcs := some { attemptInfo := [(1, exAtt 1 100 none)], settleInfo := [],
                    failInfo := [(1, exFail)] } }

/-- HTLC set with one in-flight MPP shard of 60 and one settled shard of 40
(value 100, so the remaining amount is zero while a shard is in flight). -/
def exHtlcsC5 : List HTLCAttempt :=
  [{ info := exAtt 1 60 (some exMPPA), settle := none, failure := none },
   { info := exAtt 2 40 (some exMPPA), settle := some exSettle, failure := none }]

/-- The derived snapshot of `exHtlcsC5` under value 100 with no reason. -/
def exPmC5 : MPPayment :=
  match setPaymentState 1 exInfo exHtlcsC5 none with
  | .ok pm => pm
  | .error _ => defaultMPPayment

/-! ## Helper lemmas -/

theorem nps_payments (p : KVPaymentDB) :
    (nextPaymentSequence p).2.db.payments = p.db.payments := by
  by_cases h : p.currPaymentSeq = p.storedPaymentSeq <;>
    simp [nextPaymentSequence, h]

theorem nps_index (p : KVPaymentDB) :
    (nextPaymentSequence p).2.db.index = p.db.index := by
  by_cases h : p.currPaymentSeq = p.storedPaymentSeq <;>
    simp [nextPaymentSequence, h]

theorem nps_out_eq_curr (p : KVPaymentDB) :
    (nextPaymentSequence p).1 = (nextPaymentSequence p).2.currPaymentSeq := by
  by_cases h : p.currPaymentSeq = p.storedPaymentSeq <;>
    simp [nextPaymentSequence, h]

theorem nps_stored_eq (p : KVPaymentDB) :
    (nextPaymentSequence p).2.storedPaymentSeq =
      if p.currPaymentSeq = p.storedPaymentSeq then
        p.db.seqCounter + paymentSeqBlockSize
      else p.storedPaymentSeq := by
  by_cases h : p.currPaymentSeq = p.storedPaymentSeq <;>
    simp [nextPaymentSequence, h]

theorem nps_seqCounter_eq (p : KVPaymentDB) :
    (nextPaymentSequence p).2.db.seqCounter =
      if p.currPaymentSeq = p.storedPaymentSeq then
        p.db.seqCounter + paymentSeqBlockSize
      else p.db.seqCounter := by
  by_cases h : p.currPaymentSeq = p.storedPaymentSeq <;>
    simp [nextPaymentSequence, h]

theorem nps_lt (p : KVPaymentDB) : p.currPaymentSeq < (nextPaymentSequence p).1 := by
  obtain ⟨c, s, db⟩ := p
  by_cases h : c = s
  · subst h
    by_cases h0 : c = 0 <;> simp [nextPaymentSequence, h0]
  · simp [nextPaymentSequence, h]

theorem setPaymentState_inv {seq : Nat} {info : PaymentCreationInfo}
    {htlcs : List HTLCAttempt} {reason : Option FailureReason} {m : MPPayment}
    (h : setPaymentState seq info htlcs reason = .ok m) :
    (sentAmtFees htlcs).1 ≤ info.value ∧
    m = { sequenceNum := seq, info := info, htlcs := htlcs, failureReason := reason,
          status := decidePaymentStatus htlcs reason,
          state := { numAttemptsInFlight := (inFlightHTLCs htlcs).length,
                     remainingAmt := info.value - (sentAmtFees htlcs).1,
                     feesPaid := (sentAmtFees htlcs).2,
                     hasSettledHTLC := (terminalInfo htlcs reason).1.isSome,
                     paymentFailed := (terminalInfo htlcs reason).2.isSome } } := by
  simp only [setPaymentState] at h
  split at h
  · exact absurd h (by simp)
  · next hle =>
      refine ⟨Nat.le_of_not_lt hle, ?_⟩
      injection h with h
      exact h.symm

theorem fetchPayment_inv {b : PaymentBucket} {pm : MPPayment}
    (h : fetchPayment b = .ok pm) :
    ∃ info, b.creationInfo = some info ∧
      setPaymentState (b.sequence.getD 0) info (bucketHTLCList b) b.failInfo = .ok pm := by
  unfold fetchPayment at h
  split at h
  · exact absurd h (by simp)
  · next info heq => exact ⟨info, heq, h⟩

theorem fetchPayment_ok_bucketOK {b : PaymentBucket} {pm : MPPayment}
    (h : fetchPayment b = .ok pm) : BucketOK b = true := by
  obtain ⟨info, hinfo, hset⟩ := fetchPayment_inv h
  obtain ⟨hle, _⟩ := setPaymentState_inv hset
  unfold BucketOK
  rw [hinfo]
  simpa using hle

theorem mem_aput {α : Type} {k : Nat} {v : α} {l : List (Nat × α)} {x : Nat × α}
    (h : x ∈ aput k v l) : x = (k, v) ∨ x ∈ l := by
  induction l with
  | nil => simpa [aput] using h
  | cons kv rest ih =>
    simp only [aput] at h
    split at h
    · rcases List.mem_cons.mp h with h1 | h1
      · exact .inl h1
      · exact .inr (List.mem_cons_of_mem _ h1)
    · rcases List.mem_cons.mp h with h1 | h1
      · exact .inr (by simp [h1])
      · rcases ih h1 with h2 | h2
        · exact .inl h2
        · exact .inr (List.mem_cons_of_mem _ h2)

theorem bytesToU64BE_u64ToBytesBE {n : Nat} (h : n < 18446744073709551616) :
    bytesToU64BE (u64ToBytesBE n) = n := by
  simp only [u64ToBytesBE, bytesToU64BE]
  omega

theorem u64ToBytesBE_length (n : Nat) : (u64ToBytesBE n).length = 8 := rfl

theorem goUnixNanoU64_lt (t : GoTime) : goUnixNanoU64 t < 18446744073709551616 := by
  cases t with
  | zero => simp [goUnixNanoU64]
  | unix n =>
    simp only [goUnixNanoU64]
    omega

theorem deserializeTime_append (t : GoTime) (r : List Nat) :
    deserializeTime (serializeTime t ++ r) =
      some (if goUnixNanoU64 t = 0 then GoTime.zero
            else GoTime.unix (u64ToInt64 (goUnixNanoU64 t)), r) := by
  have hlen : (serializeTime t).length = 8 := u64ToBytesBE_length _
  have htake : (serializeTime t ++ r).take 8 = serializeTime t :=
    List.take_left' hlen
  have hdrop : (serializeTime t ++ r).drop 8 = r :=
    List.drop_left' hlen
  simp only [deserializeTime, List.length_append, hlen]
  rw [if_pos (by omega), htake, hdrop]
  simp only [serializeTime, bytesToU64BE_u64ToBytesBE (goUnixNanoU64_lt t)]

theorem deserializeTime_serializeTime {t : GoTime}
    (h : timeRoundTrippable t = true) (r : List Nat) :
    deserializeTime (serializeTime t ++ r) = some (t, r) := by
  rw [deserializeTime_append]
  cases t with
  | zero => simp [goUnixNanoU64]
  | unix n =>
    simp only [timeRoundTrippable, Bool.and_eq_true, bne_iff_ne, ne_eq,
      decide_eq_true_eq] at h
    obtain ⟨⟨hn0, hlo⟩, hhi⟩ := h
    have hv0 : goUnixNanoU64 (GoTime.unix n) ≠ 0 := by
      simp only [goUnixNanoU64]
      omega
    rw [if_neg hv0]
    have : u64ToInt64 (goUnixNanoU64 (GoTime.unix n)) = n := by
      simp only [goUnixNanoU64, u64ToInt64]
      split <;> omega
    rw [this]

/-! ## Claim C9 -/

/-- Claim C9 counterexample: a time equal to the Unix epoch (`UnixNano() = 0`
but not the zero `time.Time`) serializes to eight zero bytes and therefore
decodes to the zero time, not to itself — so `deserializeTime(serializeTime t)
= t` does not hold for every time value, and an HTLC settle info carrying the
epoch settle time does not round-trip. -/
theorem epoch_time_roundtrip_cex :
    deserializeTime (serializeTime (GoTime.unix 0)) = some (GoTime.zero, []) ∧
    GoTime.unix 0 ≠ GoTime.zero ∧
    deserializeHTLCSettleInfo (serializeHTLCSettleInfo epochSettle) ≠
      some (epochSettle, []) := by decide

/-- Claim C9 (amended): encoding then decoding an HTLC settle info returns
the original value exactly (tolerating trailing bytes) for every settle info
whose preimage has its 32-byte length and whose settle time is the zero time
or has a nonzero `int64`-representable `UnixNano()`; the time codec emits
eight zero bytes for the zero (unset) time, and a stored zero decodes to the
zero time (never to the current time — the decoder is deterministic and
consults no clock). A settle time equal to the Unix epoch instead collapses
to the zero time (see the counterexample). -/
theorem settleInfo_time_roundtrip {s : HTLCSettleInfo}
    (h32 : s.preimage.length = 32)
    (ht : timeRoundTrippable s.settleTime = true) :
    (∀ r, deserializeHTLCSettleInfo (serializeHTLCSettleInfo s ++ r) = some (s, r)) ∧
    serializeTime GoTime.zero = [0, 0, 0, 0, 0, 0, 0, 0] ∧
    (∀ r, deserializeTime ([0, 0, 0, 0, 0, 0, 0, 0] ++ r) = some (GoTime.zero, r)) := by
  refine ⟨?_, rfl, ?_⟩
  · intro r
    have hlen : 32 ≤ (s.preimage ++ (serializeTime s.settleTime ++ r)).length := by
      simp [List.length_append, h32]
    have htake : (s.preimage ++ (serializeTime s.settleTime ++ r)).take 32 =
        s.preimage := List.take_left' h32
    have hdrop : (s.preimage ++ (serializeTime s.settleTime ++ r)).drop 32 =
        serializeTime s.settleTime ++ r := List.drop_left' h32
    simp only [serializeHTLCSettleInfo, deserializeHTLCSettleInfo, List.append_assoc,
      if_pos hlen, hdrop, deserializeTime_serializeTime ht, htake]
  · intro r
    have h := deserializeTime_serializeTime (t := GoTime.zero) rfl r
    simpa [serializeTime, goUnixNanoU64, u64ToBytesBE] using h

/-- Claim C9 witness: a concrete settle info with a 32-byte preimage and a
realistic settle time round-trips, with trailing bytes preserved. -/
theorem settleInfo_time_roundtrip_witness :
    deserializeHTLCSettleInfo (serializeHTLCSettleInfo exSettle32 ++ [9, 9]) =
      some (exSettle32, [9, 9]) :=
  (settleInfo_time_roundtrip (by decide) (by decide)).1 [9, 9]

theorem alookup_aput {α : Type} (k : Nat) (v : α) (l : List (Nat × α)) :
    alookup k (aput k v l) = some v := by
  induction l with
  | nil => simp [aput, alookup]
  | cons kv rest ih =>
    simp only [aput]
    split
    · simp [alookup]
    · next hne => simp [alookup, hne, ih]

theorem alookup_aput_ne {α : Type} {k k' : Nat} (hne : k' ≠ k) (v : α)
    (l : List (Nat × α)) : alookup k' (aput k v l) = alookup k' l := by
  have hk : ¬(k = k') := fun h => hne h.symm
  induction l with
  | nil => simp [aput, alookup, hk]
  | cons kv rest ih =>
    simp only [aput]
    split
    · next heq => simp [alookup, heq, hk]
    · simp only [alookup, ih]

theorem nps_sig {p q : KVPaymentDB} (h : allocSig p = allocSig q) :
    (nextPaymentSequence p).1 = (nextPaymentSequence q).1 ∧
    allocSig (nextPaymentSequence p).2 = allocSig (nextPaymentSequence q).2 := by
  obtain ⟨c, s, db⟩ := p
  obtain ⟨c', s', db'⟩ := q
  obtain ⟨h1, h2, h3⟩ : c = c' ∧ s = s' ∧ db.seqCounter = db'.seqCounter := by
    simpa [allocSig, Prod.ext_iff] using h
  subst h1; subst h2
  by_cases hc : c = s <;> simp [nextPaymentSequence, allocSig, hc, h3]

theorem initPayment_allocSig (p : KVPaymentDB) (h : Hash) (i : PaymentCreationInfo) :
    allocSig (InitPayment p h i).2 = allocSig (nextPaymentSequence p).2 := by
  simp only [InitPayment]
  split
  · split <;> simp [allocSig]
  · split <;> simp [allocSig]

theorem initPayment_alloc_all (p : KVPaymentDB) (h : Hash) (i : PaymentCreationInfo) :
    (InitPayment p h i).2.currPaymentSeq = (nextPaymentSequence p).2.currPaymentSeq ∧
    (InitPayment p h i).2.storedPaymentSeq = (nextPaymentSequence p).2.storedPaymentSeq ∧
    (InitPayment p h i).2.db.seqCounter = (nextPaymentSequence p).2.db.seqCounter := by
  simpa [allocSig, Prod.ext_iff] using initPayment_allocSig p h i

theorem initPayment_curr (p : KVPaymentDB) (h : Hash) (i : PaymentCreationInfo) :
    (InitPayment p h i).2.currPaymentSeq = (nextPaymentSequence p).2.currPaymentSeq :=
  (initPayment_alloc_all p h i).1

theorem initPayment_seqCounter (p : KVPaymentDB) (h : Hash) (i : PaymentCreationInfo) :
    (InitPayment p h i).2.db.seqCounter =
      if p.currPaymentSeq = p.storedPaymentSeq then
        p.db.seqCounter + paymentSeqBlockSize
      else p.db.seqCounter := by
  rw [(initPayment_alloc_all p h i).2.2, nps_seqCounter_eq]

theorem initSeqs_sig {p q : KVPaymentDB} (h : allocSig p = allocSig q)
    (cs : List (Hash × PaymentCreationInfo)) : initSeqs p cs = initSeqs q cs := by
  induction cs generalizing p q with
  | nil => rfl
  | cons c cs ih =>
    simp only [initSeqs]
    refine congrArg₂ List.cons (nps_sig h).1 (ih ?_)
    calc allocSig (InitPayment p c.1 c.2).2
        = allocSig (nextPaymentSequence p).2 := initPayment_allocSig p c.1 c.2
      _ = allocSig (nextPaymentSequence q).2 := (nps_sig h).2
      _ = allocSig (InitPayment q c.1 c.2).2 := (initPayment_allocSig q c.1 c.2).symm

theorem initSeqs_all_gt {q : KVPaymentDB} (cs : List (Hash × PaymentCreationInfo)) :
    ∀ x ∈ initSeqs q cs, q.currPaymentSeq < x := by
  induction cs generalizing q with
  | nil => intro x hx; simp [initSeqs] at hx
  | cons c cs ih =>
    intro x hx
    simp only [initSeqs, List.mem_cons] at hx
    rcases hx with rfl | hx
    · exact nps_lt q
    · have hx' : x ∈ initSeqs (nextPaymentSequence q).2 cs := by
        rwa [initSeqs_sig (initPayment_allocSig q c.1 c.2) cs] at hx
      have h1 := ih (q := (nextPaymentSequence q).2) x hx'
      have h2 := nps_lt q
      have h3 := nps_out_eq_curr q
      omega

theorem initSeqs_pairwise (p : KVPaymentDB) (cs : List (Hash × PaymentCreationInfo)) :
    (initSeqs p cs).Pairwise (· < ·) := by
  induction cs generalizing p with
  | nil => simp [initSeqs]
  | cons c cs ih =>
    simp only [initSeqs]
    refine List.pairwise_cons.mpr ⟨?_, ih _⟩
    intro x hx
    have hx' : x ∈ initSeqs (nextPaymentSequence p).2 cs := by
      rwa [initSeqs_sig (initPayment_allocSig p c.1 c.2) cs] at hx
    have h1 := initSeqs_all_gt (q := (nextPaymentSequence p).2) cs x hx'
    have h2 := nps_out_eq_curr p
    omega

theorem initCalls_seqCounter_mono (p : KVPaymentDB)
    (cs : List (Hash × PaymentCreationInfo)) :
    p.db.seqCounter ≤ (initCalls p cs).db.seqCounter := by
  induction cs generalizing p with
  | nil => exact le_refl _
  | cons c cs ih =>
    have h1 : p.db.seqCounter ≤ (InitPayment p c.1 c.2).2.db.seqCounter := by
      rw [initPayment_seqCounter]; split <;> omega
    exact le_trans h1 (ih _)

theorem initPayment_assigns (p : KVPaymentDB) (h : Hash) (i : PaymentCreationInfo)
    (hok : (InitPayment p h i).1 = .ok ()) :
    alookup h (InitPayment p h i).2.db.payments =
      some { creationInfo := some i, sequence := some (nextPaymentSequence p).1,
             failInfo := none, htlcs := none } := by
  simp only [InitPayment] at hok ⊢
  cases hfs : fetchPaymentStatus
      ((alookup h (nextPaymentSequence p).2.db.payments).getD emptyBucket) with
  | ok st =>
    simp only [hfs] at hok ⊢
    cases hini : st.Initializable with
    | error e => simp [hini] at hok
    | ok u => simp only [hini] ; simp [alookup_aput]
  | error e =>
    simp only [hfs] at hok ⊢
    by_cases he : e = Err.paymentNotInitiated
    · simp only [if_pos he]
      simp [alookup_aput]
    · simp [if_neg he] at hok

/-! ## Claim C8 -/

/-- Claim C8: over any sequence of `InitPayment` calls within a process, the
consumed (and hence the assigned) payment sequence numbers are strictly
increasing — so no number is ever reused; the persisted upper bound
(`seqCounter`) never decreases; a new upper bound equal to the stored bound
plus the block size 1000 is persisted exactly when the cached counter equals
the cached stored bound, and otherwise the persisted bound is untouched;
and a successful call records the consumed number as the payment's sequence. -/
theorem initPayment_sequence_monotone :
    ∀ (p : KVPaymentDB) (cs : List (Hash × PaymentCreationInfo)),
      (initSeqs p cs).Pairwise (· < ·) ∧
      p.db.seqCounter ≤ (initCalls p cs).db.seqCounter ∧
      ∀ (h : Hash) (i : PaymentCreationInfo),
        ((InitPayment p h i).2.db.seqCounter =
            p.db.seqCounter + paymentSeqBlockSize ↔
          p.currPaymentSeq = p.storedPaymentSeq) ∧
        (p.currPaymentSeq ≠ p.storedPaymentSeq →
          (InitPayment p h i).2.db.seqCounter = p.db.seqCounter) ∧
        ((InitPayment p h i).1 = .ok () →
          alookup h (InitPayment p h i).2.db.payments =
            some { creationInfo := some i, sequence := some (nextPaymentSequence p).1,
                   failInfo := none, htlcs := none }) := by
  intro p cs
  refine ⟨initSeqs_pairwise p cs, initCalls_seqCounter_mono p cs, ?_⟩
  intro h i
  have hblock : paymentSeqBlockSize = 1000 := rfl
  refine ⟨?_, ?_, initPayment_assigns p h i⟩
  · rw [initPayment_seqCounter]
    constructor
    · intro he
      by_contra hne
      rw [if_neg hne] at he
      omega
    · intro hc
      rw [if_pos hc]
  · intro hne
    rw [initPayment_seqCounter, if_neg hne]

/-- Claim C8 witness: on a concrete mid-block store, two `InitPayment` calls
consume strictly increasing numbers and do not move the persisted bound. -/
theorem initPayment_sequence_monotone_witness :
    (initSeqs (mkStore exBucketInitiated) [(7, exInfo), (8, exInfo)]).Pairwise (· < ·) ∧
    (InitPayment (mkStore exBucketInitiated) 7 exInfo).2.db.seqCounter =
      (mkStore exBucketInitiated).db.seqCounter :=
  ⟨(initPayment_sequence_monotone (mkStore exBucketInitiated) [(7, exInfo), (8, exInfo)]).1,
   (((initPayment_sequence_monotone (mkStore exBucketInitiated) []).2.2 7 exInfo).2.1
      (by decide))⟩

/-! ## Claim C10 -/

theorem initPayment_reject {p : KVPaymentDB} {h : Hash} {i : PaymentCreationInfo}
    {b : PaymentBucket} {st : PaymentStatus}
    (hb : alookup h p.db.payments = some b)
    (hst : fetchPaymentStatus b = .ok st) (hnf : st ≠ .failed) :
    ∃ e, st.Initializable = .error e ∧
      InitPayment p h i = (.error e, (nextPaymentSequence p).2) := by
  have hb1 : alookup h (nextPaymentSequence p).2.db.payments = some b := by
    rw [nps_payments]; exact hb
  obtain ⟨e, he⟩ : ∃ e, st.Initializable = .error e := by
    cases st with
    | failed => exact absurd rfl hnf
    | initiated => exact ⟨_, rfl⟩
    | inFlight => exact ⟨_, rfl⟩
    | succeeded => exact ⟨_, rfl⟩
  refine ⟨e, he, ?_⟩
  simp only [InitPayment, hb1, Option.getD_some, hst, he]

/-- Claim C10 counterexample: on a fresh process (cached counter and cached
bound both zero) over a database whose persisted bound is 5, the first
`InitPayment` call lazily initializes the counter from the store and sets it
to 6 — not to `0 + 1` — so the counter is not incremented by exactly one on
every call. -/
theorem initPayment_lazy_jump_cex :
    (InitPayment exColdStore 7 exInfo).2.currPaymentSeq = 6 ∧
    (InitPayment exColdStore 7 exInfo).2.currPaymentSeq ≠
      exColdStore.currPaymentSeq + 1 := by decide

/-- Claim C10 (amended): every `InitPayment` call advances the allocator
before any legality check — the resulting cached counter always equals the
number `nextPaymentSequence` hands out, and it is the old counter plus one
except on the lazy-initialization call (cached counter 0 = cached bound, with
a nonzero persisted bound), where it jumps to the persisted bound plus one; a
call that fails the `Initializable` check still consumes its number: the
payment and index buckets are unchanged (the allocator is the only state that
changes) and every number consumed by any later `InitPayment` call is
strictly larger, so the number is never assigned to any payment. -/
theorem initPayment_consumes_sequence :
    ∀ (p : KVPaymentDB) (h : Hash) (i : PaymentCreationInfo),
      (InitPayment p h i).2.currPaymentSeq = (nextPaymentSequence p).1 ∧
      ((p.currPaymentSeq ≠ 0 ∨ p.db.seqCounter = 0 ∨
          p.currPaymentSeq ≠ p.storedPaymentSeq) →
        (InitPayment p h i).2.currPaymentSeq = p.currPaymentSeq + 1) ∧
      (∀ b st, alookup h p.db.payments = some b → fetchPaymentStatus b = .ok st →
        st ≠ .failed →
        (InitPayment p h i).1 ≠ .ok () ∧
        (InitPayment p h i).2.db.payments = p.db.payments ∧
        (InitPayment p h i).2.db.index = p.db.index ∧
        ∀ cs x, x ∈ initSeqs (InitPayment p h i).2 cs →
          (nextPaymentSequence p).1 < x) := by
  intro p h i
  have hcurr : (InitPayment p h i).2.currPaymentSeq = (nextPaymentSequence p).1 := by
    rw [initPayment_curr, nps_out_eq_curr]
  refine ⟨hcurr, ?_, ?_⟩
  · intro hcond
    rw [hcurr]
    obtain ⟨c, s, db⟩ := p
    by_cases hc : c = s
    · subst hc
      by_cases h0 : c = 0
      · subst h0
        rcases hcond with h1 | h1 | h1
        · exact absurd rfl h1
        · have h1' : db.seqCounter = 0 := h1
          simp [nextPaymentSequence, h1']
        · exact absurd rfl h1
      · simp [nextPaymentSequence, h0]
    · simp [nextPaymentSequence, hc]
  · intro b st hb hst hnf
    obtain ⟨e, he, heq⟩ := initPayment_reject (i := i) hb hst hnf
    rw [heq]
    refine ⟨by simp, nps_payments p, nps_index p, ?_⟩
    intro cs x hx
    have h1 := initSeqs_all_gt (q := (nextPaymentSequence p).2) cs x hx
    have h2 := nps_out_eq_curr p
    omega

/-- Claim C10 witness: on a concrete store holding an `Initiated` payment,
`InitPayment` fails with a legality error yet bumps the counter from 1 to 2,
leaving the payment and index buckets untouched. -/
theorem initPayment_consumes_sequence_witness :
    (InitPayment (mkStore exBucketInitiated) 7 exInfo).2.currPaymentSeq =
      (mkStore exBucketInitiated).currPaymentSeq + 1 ∧
    (InitPayment (mkStore exBucketInitiated) 7 exInfo).1 ≠ .ok () ∧
    (InitPayment (mkStore exBucketInitiated) 7 exInfo).2.db.payments =
      (mkStore exBucketInitiated).db.payments := by
  have h1 := (initPayment_consumes_sequence (mkStore exBucketInitiated) 7 exInfo).2.1
    (.inl (by decide))
  have h2 := (initPayment_consumes_sequence (mkStore exBucketInitiated) 7 exInfo).2.2
    exBucketInitiated .initiated (by decide) (by decide) (by decide)
  exact ⟨h1, h2.1, h2.2.1⟩

/-! ## Claim C2 -/

theorem setPaymentState_error {seq : Nat} {info : PaymentCreationInfo}
    {htlcs : List HTLCAttempt} {reason : Option FailureReason} {e : Err}
    (h : setPaymentState seq info htlcs reason = .error e) : e = .sentExceedsTotal := by
  simp only [setPaymentState] at h
  split at h
  · injection h with h; exact h.symm
  · exact absurd h (by simp)

theorem fetchPayment_error {b : PaymentBucket} {e : Err} (hc : b.creationInfo ≠ none)
    (h : fetchPayment b = .error e) : e = .sentExceedsTotal := by
  unfold fetchPayment at h
  split at h
  · next heq => exact absurd heq hc
  · exact setPaymentState_error h

theorem fetchPaymentStatus_notInit {b : PaymentBucket}
    (h : fetchPaymentStatus b = .error .paymentNotInitiated) : b.creationInfo = none := by
  by_contra hc
  unfold fetchPaymentStatus at h
  rw [if_neg (by simpa using hc)] at h
  cases hf : fetchPayment b with
  | ok pm => rw [hf] at h; exact absurd h (by simp)
  | error e =>
    rw [hf] at h
    have h1 : e = Err.paymentNotInitiated := by simpa using h
    have h2 := fetchPayment_error hc hf
    subst h1
    exact absurd h2 (by decide)

theorem initPayment_retry {p : KVPaymentDB} {h : Hash} {i : PaymentCreationInfo}
    {b : PaymentBucket} (hb : alookup h p.db.payments = some b)
    (hst : fetchPaymentStatus b = .ok .failed) :
    (InitPayment p h i).1 = .ok () := by
  have hb1 : alookup h (nextPaymentSequence p).2.db.payments = some b := by
    rw [nps_payments]; exact hb
  simp only [InitPayment, hb1, Option.getD_some, hst, PaymentStatus.Initializable]

theorem initPayment_notInit {p : KVPaymentDB} {h : Hash} {i : PaymentCreationInfo}
    {b : PaymentBucket} (hb : alookup h p.db.payments = some b)
    (hst : fetchPaymentStatus b = .error .paymentNotInitiated) :
    (InitPayment p h i).1 = .ok () := by
  have hb1 : alookup h (nextPaymentSequence p).2.db.payments = some b := by
    rw [nps_payments]; exact hb
  simp only [InitPayment, hb1, Option.getD_some, hst]
  simp

theorem initPayment_absent {p : KVPaymentDB} {h : Hash} {i : PaymentCreationInfo}
    (hb : alookup h p.db.payments = none) :
    (InitPayment p h i).1 = .ok () := by
  have hb1 : alookup h (nextPaymentSequence p).2.db.payments = none := by
    rw [nps_payments]; exact hb
  simp only [InitPayment, hb1, Option.getD_none]
  rfl

theorem initPayment_other_error {p : KVPaymentDB} {h : Hash} {i : PaymentCreationInfo}
    {b : PaymentBucket} {e : Err} (hb : alookup h p.db.payments = some b)
    (hst : fetchPaymentStatus b = .error e) (hne : e ≠ Err.paymentNotInitiated) :
    InitPayment p h i = (.error e, (nextPaymentSequence p).2) := by
  have hb1 : alookup h (nextPaymentSequence p).2.db.payments = some b := by
    rw [nps_payments]; exact hb
  simp only [InitPayment, hb1, Option.getD_some, hst, if_neg hne]

/-- Claim C2: `InitPayment` on an existing payment with status `Initiated`,
`InFlight` or `Succeeded` fails with the already-in-flight, already-exists
and already-paid error respectively and leaves the persisted payment record
unchanged; it succeeds exactly when the payment does not exist (no bucket, or
no creation info) or its status is `Failed`. (The status legality predicate
`Initializable` is modelled from the spec, §4.1.) -/
theorem initPayment_idempotence :
    ∀ (p : KVPaymentDB) (h : Hash) (i : PaymentCreationInfo),
      (∀ b st, alookup h p.db.payments = some b → fetchPaymentStatus b = .ok st →
        ((st = .initiated → (InitPayment p h i).1 = .error .paymentInFlight) ∧
         (st = .inFlight → (InitPayment p h i).1 = .error .paymentExists) ∧
         (st = .succeeded → (InitPayment p h i).1 = .error .alreadyPaid) ∧
         (st ≠ .failed → alookup h (InitPayment p h i).2.db.payments = some b) ∧
         (st = .failed → (InitPayment p h i).1 = .ok ()))) ∧
      ((alookup h p.db.payments = none ∨
        (∃ b, alookup h p.db.payments = some b ∧ b.creationInfo = none)) →
        (InitPayment p h i).1 = .ok ()) ∧
      ((InitPayment p h i).1 = .ok () →
        (alookup h p.db.payments = none ∨
         (∃ b, alookup h p.db.payments = some b ∧ b.creationInfo = none) ∨
         (∃ b, alookup h p.db.payments = some b ∧
           fetchPaymentStatus b = .ok .failed))) := by
  intro p h i
  refine ⟨?_, ?_, ?_⟩
  · intro b st hb hst
    refine ⟨?_, ?_, ?_, ?_, ?_⟩
    · rintro rfl
      obtain ⟨e, he, heq⟩ := initPayment_reject (i := i) hb hst (by decide)
      simp only [PaymentStatus.Initializable, Except.error.injEq] at he
      rw [heq, ← he]
    · rintro rfl
      obtain ⟨e, he, heq⟩ := initPayment_reject (i := i) hb hst (by decide)
      simp only [PaymentStatus.Initializable, Except.error.injEq] at he
      rw [heq, ← he]
    · rintro rfl
      obtain ⟨e, he, heq⟩ := initPayment_reject (i := i) hb hst (by decide)
      simp only [PaymentStatus.Initializable, Except.error.injEq] at he
      rw [heq, ← he]
    · intro hnf
      obtain ⟨e, he, heq⟩ := initPayment_reject (i := i) hb hst hnf
      rw [heq]
      show alookup h (nextPaymentSequence p).2.db.payments = some b
      rw [nps_payments]; exact hb
    · rintro rfl
      exact initPayment_retry hb hst
  · intro habs
    rcases habs with habs | ⟨b, hb, hnone⟩
    · exact initPayment_absent habs
    · exact initPayment_notInit hb (by simp [fetchPaymentStatus, hnone])
  · intro hok
    cases hb : alookup h p.db.payments with
    | none => exact .inl rfl
    | some b =>
      cases hst : fetchPaymentStatus b with
      | ok st =>
        cases st with
        | failed => exact .inr (.inr ⟨b, rfl, hst⟩)
        | initiated =>
          obtain ⟨e, he, heq⟩ := initPayment_reject (i := i) hb hst (by decide)
          rw [heq] at hok
          exact absurd hok (by simp)
        | inFlight =>
          obtain ⟨e, he, heq⟩ := initPayment_reject (i := i) hb hst (by decide)
          rw [heq] at hok
          exact absurd hok (by simp)
        | succeeded =>
          obtain ⟨e, he, heq⟩ := initPayment_reject (i := i) hb hst (by decide)
          rw [heq] at hok
          exact absurd hok (by simp)
      | error e =>
        by_cases he : e = Err.paymentNotInitiated
        · subst he
          exact .inr (.inl ⟨b, rfl, fetchPaymentStatus_notInit hst⟩)
        · have heq := initPayment_other_error (i := i) hb hst he
          rw [heq] at hok
          exact absurd hok (by simp)

/-- Claim C2 witness: on the concrete store holding an `Initiated` payment,
`InitPayment` fails with the already-in-flight error and leaves the record
unchanged; on the store holding a `Failed` payment it succeeds. -/
theorem initPayment_idempotence_witness :
    (InitPayment (mkStore exBucketInitiated) 7 exInfo).1 = .error .paymentInFlight ∧
    alookup 7 (InitPayment (mkStore exBucketInitiated) 7 exInfo).2.db.payments =
      some exBucketInitiated ∧
    (InitPayment (mkStore exBucketFailed) 7 exInfo).1 = .ok () := by
  have h1 := (initPayment_idempotence (mkStore exBucketInitiated) 7 exInfo).1
    exBucketInitiated .initiated (by decide) (by decide)
  have h2 := (initPayment_idempotence (mkStore exBucketFailed) 7 exInfo).1
    exBucketFailed .failed (by decide) (by decide)
  exact ⟨h1.1 rfl, h1.2.2.2.1 (by decide), h2.2.2.2.2 rfl⟩

/-! ## Claim C5 -/

theorem inFlight_length_pos {htlcs : List HTLCAttempt} :
    0 < (inFlightHTLCs htlcs).length ↔
      htlcs.any (fun h => h.settle.isNone && h.failure.isNone) = true := by
  rw [inFlightHTLCs, List.length_pos, ne_eq, List.filter_eq_nil_iff, List.any_eq_true]
  push_neg
  constructor
  · rintro ⟨x, hx, hp⟩
    exact ⟨x, hx, by simpa using hp⟩
  · rintro ⟨x, hx, hp⟩
    exact ⟨x, hx, by simpa using hp⟩

theorem terminalInfo_fst (htlcs : List HTLCAttempt) (reason : Option FailureReason) :
    (terminalInfo htlcs reason).1.isSome = htlcs.any (fun h => h.settle.isSome) := by
  unfold terminalInfo
  cases hf : htlcs.find? (fun h => h.settle.isSome) with
  | none =>
    have : htlcs.any (fun h => h.settle.isSome) = false := by
      rw [List.any_eq_false]
      exact List.find?_eq_none.mp hf
    simp [this]
  | some a =>
    have : htlcs.any (fun h => h.settle.isSome) = true :=
      List.any_eq_true.mpr ⟨a, List.mem_of_find?_eq_some hf,
        List.find?_some (p := fun h : HTLCAttempt => h.settle.isSome) hf⟩
    simp [this]

theorem terminalInfo_snd (htlcs : List HTLCAttempt) (reason : Option FailureReason) :
    (terminalInfo htlcs reason).2 =
      if htlcs.any (fun h => h.settle.isSome) = true then none else reason := by
  unfold terminalInfo
  cases hf : htlcs.find? (fun h => h.settle.isSome) with
  | none =>
    have : htlcs.any (fun h => h.settle.isSome) = false := by
      rw [List.any_eq_false]
      exact List.find?_eq_none.mp hf
    simp [this]
  | some a =>
    have : htlcs.any (fun h => h.settle.isSome) = true :=
      List.any_eq_true.mpr ⟨a, List.mem_of_find?_eq_some hf,
        List.find?_some (p := fun h : HTLCAttempt => h.settle.isSome) hf⟩
    simp [this]

/-- Claim C5: for every payment snapshot whose state and status are derived
by `setState`, `NeedWaitAttempts` returns `true` iff at least one HTLC is in
flight and (a settled HTLC exists, or a failure reason is recorded at the
payment level, or the remaining amount is zero); it returns the internal
error for the impossible combinations `Initiated` with zero remaining amount
and `Succeeded` with nonzero remaining amount. -/
theorem needWaitAttempts_spec :
    ∀ (seq : Nat) (info : PaymentCreationInfo) (htlcs : List HTLCAttempt)
      (reason : Option FailureReason) (m : MPPayment),
      setPaymentState seq info htlcs reason = .ok m →
      ((m.NeedWaitAttempts = .ok true ↔
        (0 < m.state.numAttemptsInFlight ∧
         (m.state.hasSettledHTLC = true ∨ m.state.paymentFailed = true ∨
          m.state.remainingAmt = 0))) ∧
       (m.status = .initiated → m.state.remainingAmt = 0 →
         m.NeedWaitAttempts = .error .paymentInternal) ∧
       (m.status = .succeeded → m.state.remainingAmt ≠ 0 →
         m.NeedWaitAttempts = .error .paymentInternal)) := by
  intro seq info htlcs reason m hm
  obtain ⟨hsent, rfl⟩ := setPaymentState_inv hm
  clear hm
  have hpos := @inFlight_length_pos htlcs
  have hfst := terminalInfo_fst htlcs reason
  have hsnd := terminalInfo_snd htlcs reason
  cases hA : htlcs.any (fun h => h.settle.isNone && h.failure.isNone) <;>
    cases hS : htlcs.any (fun h => h.settle.isSome) <;>
    cases hR : reason.isSome <;>
    by_cases hrem : info.value - (sentAmtFees htlcs).1 = 0 <;>
    rw [hA] at hpos <;> rw [hS] at hfst hsnd <;>
    simp only [MPPayment.NeedWaitAttempts, decidePaymentStatus, hpos, hfst, hsnd,
      hA, hS, hR, hrem, Bool.false_eq_true, Bool.true_eq_false, if_true, if_false,
      ite_true, ite_false, ne_eq, not_true, not_false_eq_true, Option.isSome_some,
      Option.isSome_none] <;>
    try (constructor <;> simp_all)

/-- Claim C5 witness: the concrete snapshot with an in-flight shard, a
settled shard and zero remaining amount must wait for its in-flight HTLCs. -/
theorem needWaitAttempts_spec_witness : exPmC5.NeedWaitAttempts = .ok true :=
  ((needWaitAttempts_spec 1 exInfo exHtlcsC5 none exPmC5 (by decide)).1).mpr
    (by decide)

/-! ## Claim C3 -/

theorem fetchPaymentStatus_of_ok {b : PaymentBucket} {pm : MPPayment}
    (h : fetchPayment b = .ok pm) : fetchPaymentStatus b = .ok pm.status := by
  obtain ⟨info, hinfo, _⟩ := fetchPayment_inv h
  simp only [fetchPaymentStatus, hinfo, Option.isNone_some, Bool.false_eq_true,
    if_false, h]

theorem fetchPayment_setFail {b : PaymentBucket} {pm : MPPayment}
    (r : FailureReason) (h : fetchPayment b = .ok pm) :
    ∃ pm', fetchPayment { b with failInfo := some r } = .ok pm' := by
  obtain ⟨ci, sq, fi, ht⟩ := b
  obtain ⟨info, hinfo, hset⟩ := fetchPayment_inv h
  obtain ⟨hle, _⟩ := setPaymentState_inv hset
  have hinfo' : ci = some info := hinfo
  subst hinfo'
  cases ht <;>
    (simp only [bucketHTLCList] at hle
     simp only [fetchPayment, setPaymentState, bucketHTLCList]
     rw [if_neg (not_lt.mpr hle)]
     exact ⟨_, rfl⟩)

theorem updateHtlcKey_notUpdatable {p : KVPaymentDB} {h : Hash} {aid : Nat}
    {upd : HtlcUpdate} {b : PaymentBucket} {pm : MPPayment} {e : Err}
    (hb : alookup h p.db.payments = some b) (hpm : fetchPayment b = .ok pm)
    (he : pm.status.Updatable = .error e) :
    updateHtlcKey p h aid upd = (.error e, p) := by
  simp only [updateHtlcKey, hb, hpm, he]

theorem registrable_of_updatable_error {pm : MPPayment} {e : Err}
    (he : pm.status.Updatable = .error e) : pm.Registrable = .error e := by
  simp only [MPPayment.Registrable, he]

theorem registerAttempt_notRegistrable {p : KVPaymentDB} {h : Hash}
    {att : HTLCAttemptInfo} {b : PaymentBucket} {pm : MPPayment} {e : Err}
    (hb : alookup h p.db.payments = some b) (hpm : fetchPayment b = .ok pm)
    (he : pm.Registrable = .error e) :
    RegisterAttempt p h att = (.error e, p) := by
  simp only [RegisterAttempt, hb, hpm, he]

theorem failPayment_writes {p : KVPaymentDB} {h : Hash} {r : FailureReason}
    {b : PaymentBucket} {pm : MPPayment}
    (hb : alookup h p.db.payments = some b) (hpm : fetchPayment b = .ok pm) :
    ∃ pm', fetchPayment { b with failInfo := some r } = .ok pm' ∧
      FailPayment p h r = (.ok pm',
        { p with db := { p.db with
            payments := aput h { b with failInfo := some r } p.db.payments } }) := by
  have hfs := fetchPaymentStatus_of_ok hpm
  obtain ⟨pm', hpm'⟩ := fetchPayment_setFail r hpm
  refine ⟨pm', hpm', ?_⟩
  simp only [FailPayment, hb, hfs, commitFetch, hpm']

/-- Claim C3 counterexample: on a fully settled (terminal, `Succeeded`)
payment, `FailPayment` is not a no-op — it writes the failure reason into the
persisted record, so "every operation other than deletion leaves a terminal
payment's record unchanged" fails as stated. -/
theorem terminal_failPayment_mutates_cex :
    fetchPayment exBucketSettled = .ok (exPmOf exBucketSettled) ∧
    (exPmOf exBucketSettled).status = .succeeded ∧
    alookup 7 (FailPayment (mkStore exBucketSettled) 7 0).2.db.payments ≠
      some exBucketSettled := by decide

/-- Claim C3 (amended): for every payment in a terminal state (`Succeeded` or
`Failed`), `SettleAttempt`, `FailAttempt` and `RegisterAttempt` fail with the
already-succeeded / already-failed error and leave the whole store unchanged;
`FailPayment`, however, succeeds and changes exactly the failure-reason field
of the payment's record (and `InitPayment` on a `Failed` payment resets the
record for retry, spec §4.2). -/
theorem terminal_payment_ops :
    ∀ (p : KVPaymentDB) (h : Hash) (b : PaymentBucket) (pm : MPPayment),
      alookup h p.db.payments = some b → fetchPayment b = .ok pm →
      (pm.status = .succeeded ∨ pm.status = .failed) →
      ((∀ aid s, SettleAttempt p h aid s =
          (.error (if pm.status = PaymentStatus.succeeded then
            Err.paymentAlreadySucceeded else Err.paymentAlreadyFailed), p)) ∧
       (∀ aid f, FailAttempt p h aid f =
          (.error (if pm.status = PaymentStatus.succeeded then
            Err.paymentAlreadySucceeded else Err.paymentAlreadyFailed), p)) ∧
       (∀ a, RegisterAttempt p h a =
          (.error (if pm.status = PaymentStatus.succeeded then
            Err.paymentAlreadySucceeded else Err.paymentAlreadyFailed), p)) ∧
       (∀ r, alookup h (FailPayment p h r).2.db.payments =
              some { b with failInfo := some r } ∧
             (∀ h', h' ≠ h →
               alookup h' (FailPayment p h r).2.db.payments =
                 alookup h' p.db.payments) ∧
             (FailPayment p h r).2.db.index = p.db.index ∧
             (FailPayment p h r).2.db.seqCounter = p.db.seqCounter)) := by
  intro p h b pm hb hpm hterm
  have hupd : pm.status.Updatable =
      .error (if pm.status = PaymentStatus.succeeded then
        Err.paymentAlreadySucceeded else Err.paymentAlreadyFailed) := by
    rcases hterm with hs | hs <;> rw [hs] <;> rfl
  refine ⟨?_, ?_, ?_, ?_⟩
  · intro aid s
    exact updateHtlcKey_notUpdatable hb hpm hupd
  · intro aid f
    exact updateHtlcKey_notUpdatable hb hpm hupd
  · intro a
    exact registerAttempt_notRegistrable hb hpm (registrable_of_updatable_error hupd)
  · intro r
    obtain ⟨pm', hpm', heq⟩ := failPayment_writes (r := r) hb hpm
    rw [heq]
    refine ⟨alookup_aput h _ _, ?_, rfl, rfl⟩
    intro h' hne
    exact alookup_aput_ne hne _ _

/-- Claim C3 witness: on the concrete fully settled payment, `SettleAttempt`
is rejected with the already-succeeded error and the store is unchanged,
while `FailPayment` rewrites exactly the failure-reason field. -/
theorem terminal_payment_ops_witness :
    SettleAttempt (mkStore exBucketSettled) 7 1 exSettle =
      (.error Err.paymentAlreadySucceeded, mkStore exBucketSettled) ∧
    alookup 7 (FailPayment (mkStore exBucketSettled) 7 3).2.db.payments =
      some { exBucketSettled with failInfo := some 3 } := by
  have hth := terminal_payment_ops (mkStore exBucketSettled) 7 exBucketSettled
    (exPmOf exBucketSettled) (by decide) (by decide) (.inl (by decide))
  refine ⟨?_, (hth.2.2.2 3).1⟩
  have h1 := hth.1 1 exSettle
  rwa [if_pos (by decide)] at h1

/-! ## Claim C4 -/

theorem commitFetch_frame (p : KVPaymentDB) (h : Hash) (b' : PaymentBucket) :
    (commitFetch p h b').2 = p ∨ (commitFetch p h b').1.isOk = true := by
  unfold commitFetch
  split
  · exact .inl rfl
  · exact .inr rfl

theorem updateHtlcKey_frame (p : KVPaymentDB) (h : Hash) (aid : Nat)
    (upd : HtlcUpdate) :
    (updateHtlcKey p h aid upd).2 = p ∨ (updateHtlcKey p h aid upd).1.isOk = true := by
  unfold updateHtlcKey
  repeat' split
  all_goals first
    | exact .inl rfl
    | apply commitFetch_frame

theorem updateHtlcKey_ok_inv {p : KVPaymentDB} {h : Hash} {aid : Nat}
    {upd : HtlcUpdate} (hok : (updateHtlcKey p h aid upd).1.isOk = true) :
    ∃ b pm hbk, alookup h p.db.payments = some b ∧ fetchPayment b = .ok pm ∧
      pm.status.Updatable = .ok () ∧ b.htlcs = some hbk ∧
      (alookup aid hbk.attemptInfo).isSome = true ∧
      alookup aid hbk.failInfo = none ∧ alookup aid hbk.settleInfo = none := by
  unfold updateHtlcKey at hok
  split at hok
  · exact Bool.noConfusion hok
  · next b hb =>
    split at hok
    · exact Bool.noConfusion hok
    · next pm hpm =>
      split at hok
      · exact Bool.noConfusion hok
      · next u hupd =>
        split at hok
        · exact Bool.noConfusion hok
        · next hbk hsome =>
          split at hok
          · exact Bool.noConfusion hok
          · next hno =>
            split at hok
            · exact Bool.noConfusion hok
            · next hnf =>
              split at hok
              · exact Bool.noConfusion hok
              · next hns =>
                refine ⟨b, pm, hbk, hb, hpm, hupd, hsome, ?_, ?_, ?_⟩
                · cases hx : alookup aid hbk.attemptInfo <;> simp_all
                · cases hx : alookup aid hbk.failInfo <;> simp_all
                · cases hx : alookup aid hbk.settleInfo <;> simp_all

/-- Claim C4: `SettleAttempt`/`FailAttempt` (both run `updateHtlcKey`)
succeed only when the payment's status is updatable (`Initiated` or
`InFlight`) and the referenced attempt id is registered and neither already
settled nor already failed; an unknown attempt id, an already-failed shard
and an already-settled shard each return their own distinct error (the
already-failed check running first), and no settle or fail info is written
when an error is returned — the store is unchanged. (`Updatable` is modelled
from the spec, §4.1.) -/
theorem updateHtlc_preconditions :
    ∀ (p : KVPaymentDB) (h : Hash) (aid : Nat) (upd : HtlcUpdate),
      (∀ st : PaymentStatus, st.Updatable = .ok () ↔
        (st = .initiated ∨ st = .inFlight)) ∧
      ((updateHtlcKey p h aid upd).1.isOk = true →
        ∃ b pm hbk, alookup h p.db.payments = some b ∧ fetchPayment b = .ok pm ∧
          pm.status.Updatable = .ok () ∧ b.htlcs = some hbk ∧
          (alookup aid hbk.attemptInfo).isSome = true ∧
          alookup aid hbk.failInfo = none ∧ alookup aid hbk.settleInfo = none) ∧
      (∀ b pm, alookup h p.db.payments = some b → fetchPayment b = .ok pm →
        pm.status.Updatable = .ok () →
        ((b.htlcs = none →
           updateHtlcKey p h aid upd = (.error .htlcsBucketNotFound, p)) ∧
         (∀ hbk, b.htlcs = some hbk →
           ((alookup aid hbk.attemptInfo = none →
              updateHtlcKey p h aid upd = (.error .htlcNotRegistered, p)) ∧
            (∀ ai fi, alookup aid hbk.attemptInfo = some ai →
              alookup aid hbk.failInfo = some fi →
              updateHtlcKey p h aid upd = (.error .attemptAlreadyFailed, p)) ∧
            (∀ ai si, alookup aid hbk.attemptInfo = some ai →
              alookup aid hbk.failInfo = none →
              alookup aid hbk.settleInfo = some si →
              updateHtlcKey p h aid upd = (.error .attemptAlreadySettled, p)))))) ∧
      ((updateHtlcKey p h aid upd).1.isOk = false →
        (updateHtlcKey p h aid upd).2 = p) := by
  intro p h aid upd
  refine ⟨?_, updateHtlcKey_ok_inv, ?_, ?_⟩
  · intro st
    cases st <;> simp [PaymentStatus.Updatable]
  · intro b pm hb hpm hupd
    refine ⟨?_, ?_⟩
    · intro hnone
      simp [updateHtlcKey, hb, hpm, hupd, hnone]
    · intro hbk hsome
      refine ⟨?_, ?_, ?_⟩
      · intro hno
        simp [updateHtlcKey, hb, hpm, hupd, hsome, hno]
      · intro ai fi hreg hfail
        simp [updateHtlcKey, hb, hpm, hupd, hsome, hreg, hfail]
      · intro ai si hreg hfail hset
        simp [updateHtlcKey, hb, hpm, hupd, hsome, hreg, hfail, hset]
  · intro herr
    rcases updateHtlcKey_frame p h aid upd with hf | hf
    · exact hf
    · rw [herr] at hf
      exact absurd hf (by decide)

/-- Claim C4 witness: settling an attempt that has already failed (on a
payment that is still updatable) is rejected with the already-failed error
and leaves the store unchanged. -/
theorem updateHtlc_preconditions_witness :
    updateHtlcKey (mkStore exBucketFailedAttempt) 7 1 (.settle exSettle) =
      (.error .attemptAlreadyFailed, mkStore exBucketFailedAttempt) :=
  (((updateHtlc_preconditions (mkStore exBucketFailedAttempt) 7 1
      (.settle exSettle)).2.2.1 exBucketFailedAttempt
      (exPmOf exBucketFailedAttempt) (by decide) (by decide) (by decide)).2
    { attemptInfo := [(1, exAtt 1 100 none)], settleInfo := [],
      failInfo := [(1, exFail)] } (by decide)).2.1 (exAtt 1 100 none) exFail
    (by decide) (by decide)

/-! ## Claim C6 -/

theorem checkShards_append_error {ib : Bool} {nh : Hop} {l₁ : List HTLCAttempt}
    {a : HTLCAttempt} {e : Err} (l₂ : List HTLCAttempt)
    (h₁ : checkShards ib nh l₁ = .ok ()) (ha : shardCheck ib nh a = .error e) :
    checkShards ib nh (l₁ ++ a :: l₂) = .error e := by
  induction l₁ with
  | nil => simp [checkShards, ha]
  | cons x xs ih =>
    cases hx : shardCheck ib nh x with
    | error e' =>
      simp only [checkShards, List.cons_append, hx] at h₁
      exact absurd h₁ (by simp)
    | ok u =>
      simp only [checkShards, List.cons_append, hx] at h₁ ⊢
      exact ih h₁

theorem registerAttempt_shardError {p : KVPaymentDB} {h : Hash}
    {att : HTLCAttemptInfo} {b : PaymentBucket} {pm : MPPayment} {e : Err}
    (hb : alookup h p.db.payments = some b) (hpm : fetchPayment b = .ok pm)
    (hreg : pm.Registrable = .ok ())
    (hguard : (!att.route.finalHop.encryptedData.isEmpty &&
      att.route.finalHop.mpp.isSome) = false)
    (hcheck : checkShards (!att.route.finalHop.encryptedData.isEmpty)
      att.route.finalHop (inFlightHTLCs pm.htlcs) = .error e) :
    RegisterAttempt p h att = (.error e, p) := by
  simp only [RegisterAttempt, hb, hpm, hreg, hguard, hcheck,
    Bool.false_eq_true, if_false]

theorem registrable_no_settled {b : PaymentBucket} {pm : MPPayment}
    (hpm : fetchPayment b = .ok pm) (hreg : pm.Registrable = .ok ()) :
    ∀ a ∈ pm.htlcs, a.settle = none := by
  obtain ⟨info, hinfo, hset⟩ := fetchPayment_inv hpm
  obtain ⟨_, rfl⟩ := setPaymentState_inv hset
  intro a ha
  by_contra hne
  have hS : (bucketHTLCList b).any (fun h => h.settle.isSome) = true :=
    List.any_eq_true.mpr ⟨a, ha, by cases hx : a.settle <;> simp_all⟩
  cases hA : (bucketHTLCList b).any (fun h => h.settle.isNone && h.failure.isNone) with
  | true =>
    have hst : decidePaymentStatus (bucketHTLCList b) b.failInfo = .inFlight := by
      simp [decidePaymentStatus, hA]
    simp [MPPayment.Registrable, hst, PaymentStatus.Updatable,
      terminalInfo_fst, hS] at hreg
  | false =>
    have hst : decidePaymentStatus (bucketHTLCList b) b.failInfo = .succeeded := by
      simp [decidePaymentStatus, hA, hS]
    simp [MPPayment.Registrable, hst, PaymentStatus.Updatable] at hreg

theorem nonFailed_eq_inFlight {htlcs : List HTLCAttempt}
    (h : ∀ a ∈ htlcs, a.settle = none) :
    nonFailedHTLCs htlcs = inFlightHTLCs htlcs := by
  unfold nonFailedHTLCs inFlightHTLCs
  apply List.filter_congr
  intro a ha
  simp [h a ha]

/-- Claim C6: for every non-blinded `RegisterAttempt` checked against an
existing non-failed HTLC of the payment (all earlier non-failed HTLCs having
passed the check): if exactly one of the two final hops carries an MPP record
the call fails with non-mpp-into-mpp (`ErrMPPayment`) or mpp-into-non-mpp
(`ErrNonMPPayment`) respectively; if both carry MPP records with differing
payment addresses it fails with the address-mismatch error, and with equal
addresses but differing total amounts with the total-mismatch error; in each
case the store is unchanged, so the attempt is not persisted. -/
theorem registerAttempt_mpp_checks :
    ∀ (p : KVPaymentDB) (h : Hash) (att : HTLCAttemptInfo) (b : PaymentBucket)
      (pm : MPPayment) (pre post : List HTLCAttempt) (a : HTLCAttempt),
      alookup h p.db.payments = some b → fetchPayment b = .ok pm →
      pm.Registrable = .ok () →
      att.route.finalHop.encryptedData = [] →
      nonFailedHTLCs pm.htlcs = pre ++ a :: post →
      checkShards false att.route.finalHop pre = .ok () →
      ((att.route.finalHop.mpp = none → a.info.route.finalHop.mpp ≠ none →
         RegisterAttempt p h att = (.error .mpPayment, p)) ∧
       (att.route.finalHop.mpp ≠ none → a.info.route.finalHop.mpp = none →
         RegisterAttempt p h att = (.error .nonMPPayment, p)) ∧
       (∀ m hm, att.route.finalHop.mpp = some m →
         a.info.route.finalHop.mpp = some hm → m.paymentAddr ≠ hm.paymentAddr →
         RegisterAttempt p h att = (.error .mppPaymentAddrMismatch, p)) ∧
       (∀ m hm, att.route.finalHop.mpp = some m →
         a.info.route.finalHop.mpp = some hm → m.paymentAddr = hm.paymentAddr →
         m.totalMsat ≠ hm.totalMsat →
         RegisterAttempt p h att = (.error .mppTotalAmountMismatch, p))) := by
  intro p h att b pm pre post a hb hpm hreg hENC hsplit hpre
  have hbl : (!att.route.finalHop.encryptedData.isEmpty) = false := by
    rw [hENC]; rfl
  have hflt : inFlightHTLCs pm.htlcs = pre ++ a :: post := by
    rw [← nonFailed_eq_inFlight (registrable_no_settled hpm hreg)]
    exact hsplit
  have main : ∀ e, shardCheck false att.route.finalHop a = .error e →
      RegisterAttempt p h att = (.error e, p) := by
    intro e hsc
    refine registerAttempt_shardError hb hpm hreg (by rw [hbl]; simp) ?_
    rw [hbl, hflt]
    exact checkShards_append_error post hpre hsc
  refine ⟨?_, ?_, ?_, ?_⟩
  · intro hm hother
    obtain ⟨y, hy⟩ := Option.ne_none_iff_exists'.mp hother
    exact main _ (by simp [shardCheck, hm, hy])
  · intro hm hother
    obtain ⟨y, hy⟩ := Option.ne_none_iff_exists'.mp hm
    exact main _ (by simp [shardCheck, hy, hother])
  · intro m hm hmm hhm haddr
    exact main _ (by simp [shardCheck, hmm, hhm, haddr])
  · intro m hm hmm hhm haddr htot
    exact main _ (by simp [shardCheck, hmm, hhm, haddr, htot])

/-- Claim C6 witness: registering a shard whose MPP payment address differs
from the existing in-flight shard's address fails with the address-mismatch
error and leaves the store unchanged. -/
theorem registerAttempt_mpp_checks_witness :
    RegisterAttempt (mkStore exBucketMPP) 7 (exAtt 2 50 (some exMPPB)) =
      (.error .mppPaymentAddrMismatch, mkStore exBucketMPP) :=
  ((registerAttempt_mpp_checks (mkStore exBucketMPP) 7 (exAtt 2 50 (some exMPPB))
      exBucketMPP (exPmOf exBucketMPP) [] []
      { info := exAtt 1 60 (some exMPPA), settle := none, failure := none }
      (by decide) (by decide) (by decide) (by decide) (by decide)
      (by decide)).2.2.1 exMPPB exMPPA (by decide) (by decide) (by decide))

/-! ## Claim C7 -/

theorem registerAttempt_frame (p : KVPaymentDB) (h : Hash) (att : HTLCAttemptInfo) :
    (RegisterAttempt p h att).2 = p ∨ (RegisterAttempt p h att).1.isOk = true := by
  simp only [RegisterAttempt]
  repeat' split
  all_goals first
    | exact .inl rfl
    | apply commitFetch_frame

theorem checkShards_nonMPP_ok {nh : Hop} (hnone : nh.mpp = none)
    {l : List HTLCAttempt} (h : ∀ x ∈ l, x.info.route.finalHop.mpp = none) :
    checkShards false nh l = .ok () := by
  induction l with
  | nil => rfl
  | cons x xs ih =>
    have hx := h x (by simp)
    have hrest := ih (fun y hy => h y (List.mem_cons_of_mem _ hy))
    simp [checkShards, shardCheck, hnone, hx, hrest]

theorem registerAttempt_valueGuard {p : KVPaymentDB} {h : Hash}
    {att : HTLCAttemptInfo} {b : PaymentBucket} {pm : MPPayment}
    (hb : alookup h p.db.payments = some b) (hpm : fetchPayment b = .ok pm)
    (hENC : att.route.finalHop.encryptedData = [])
    (hmpp : att.route.finalHop.mpp = none)
    (hne : att.route.receiverAmt ≠ pm.info.value) :
    (RegisterAttempt p h att).1.isOk = false ∧ (RegisterAttempt p h att).2 = p := by
  have hbl : (!att.route.finalHop.encryptedData.isEmpty) = false := by
    rw [hENC]; rfl
  cases hr : pm.Registrable with
  | error e =>
    simp only [RegisterAttempt, hb, hpm, hr]
    exact ⟨rfl, trivial⟩
  | ok u =>
    have hguard : (!att.route.finalHop.encryptedData.isEmpty &&
        att.route.finalHop.mpp.isSome) = false := by rw [hbl]; simp
    cases hc : checkShards (!att.route.finalHop.encryptedData.isEmpty)
        att.route.finalHop (inFlightHTLCs pm.htlcs) with
    | error e =>
      simp only [RegisterAttempt, hb, hpm, hr, hguard, Bool.false_eq_true,
        if_false, hc]
      exact ⟨rfl, trivial⟩
    | ok u2 =>
      have hcond : (!(!att.route.finalHop.encryptedData.isEmpty) &&
          att.route.finalHop.mpp.isNone &&
          (att.route.receiverAmt != pm.info.value)) = true := by
        rw [hbl, hmpp]
        simp [bne_iff_ne, hne]
      simp only [RegisterAttempt, hb, hpm, hr, hguard, Bool.false_eq_true,
        if_false, hc, hcond, if_true]
      exact ⟨rfl, trivial⟩

/-- Claim C7 counterexample: a non-blinded, non-MPP attempt whose receiver
amount (99) differs from the payment value (100), registered on a payment
that already has an in-flight MPP shard, fails with `ErrMPPayment`
(non-mpp-into-mpp) — not with the value-mismatch error the claim demands. -/
theorem registerAttempt_value_mismatch_cex :
    (exAtt 2 99 none).route.finalHop.encryptedData = [] ∧
    (exAtt 2 99 none).route.finalHop.mpp = none ∧
    (exAtt 2 99 none).route.receiverAmt ≠ exInfo.value ∧
    RegisterAttempt (mkStore exBucketMPP) 7 (exAtt 2 99 none) =
      (.error .mpPayment, mkStore exBucketMPP) ∧
    (Except.error Err.mpPayment : Except Err MPPayment) ≠
      .error .valueMismatch := by decide

/-- Claim C7 (amended): for every `RegisterAttempt` whose route is not
blinded and whose final hop carries no MPP record, if the receiver amount
differs from the payment's value the call always fails and the attempt is
not persisted (the store is unchanged); the error is precisely
value-mismatch when the payment is registrable and no existing in-flight
shard carries an MPP record (otherwise an earlier check reports its own
error first, as in the counterexample). -/
theorem registerAttempt_value_mismatch :
    ∀ (p : KVPaymentDB) (h : Hash) (att : HTLCAttemptInfo) (b : PaymentBucket)
      (pm : MPPayment),
      alookup h p.db.payments = some b → fetchPayment b = .ok pm →
      att.route.finalHop.encryptedData = [] →
      att.route.finalHop.mpp = none →
      att.route.receiverAmt ≠ pm.info.value →
      ((RegisterAttempt p h att).1.isOk = false ∧
       (RegisterAttempt p h att).2 = p ∧
       (pm.Registrable = .ok () →
        (∀ x ∈ inFlightHTLCs pm.htlcs, x.info.route.finalHop.mpp = none) →
        RegisterAttempt p h att = (.error .valueMismatch, p))) := by
  intro p h att b pm hb hpm hENC hmpp hne
  obtain ⟨h1, h2⟩ := registerAttempt_valueGuard hb hpm hENC hmpp hne
  refine ⟨h1, h2, ?_⟩
  intro hreg hall
  have hbl : (!att.route.finalHop.encryptedData.isEmpty) = false := by
    rw [hENC]; rfl
  have hguard : (!att.route.finalHop.encryptedData.isEmpty &&
      att.route.finalHop.mpp.isSome) = false := by rw [hbl]; simp
  have hchk : checkShards (!att.route.finalHop.encryptedData.isEmpty)
      att.route.finalHop (inFlightHTLCs pm.htlcs) = .ok () := by
    rw [hbl]; exact checkShards_nonMPP_ok hmpp hall
  have hcond : (!(!att.route.finalHop.encryptedData.isEmpty) &&
      att.route.finalHop.mpp.isNone &&
      (att.route.receiverAmt != pm.info.value)) = true := by
    rw [hbl, hmpp]
    simp [bne_iff_ne, hne]
  simp only [RegisterAttempt, hb, hpm, hreg, hguard, Bool.false_eq_true, if_false,
    hchk, hcond, if_true]

/-- Claim C7 witness: scenario S4 — on a freshly initiated payment of value
100, registering a non-MPP attempt of 99 fails with exactly the
value-mismatch error and the store is unchanged. -/
theorem registerAttempt_value_mismatch_witness :
    RegisterAttempt (mkStore exBucketInitiated) 7 (exAtt 1 99 none) =
      (.error .valueMismatch, mkStore exBucketInitiated) :=
  ((registerAttempt_value_mismatch (mkStore exBucketInitiated) 7 (exAtt 1 99 none)
      exBucketInitiated (exPmOf exBucketInitiated) (by decide) (by decide)
      (by decide) (by decide) (by decide)).2.2 (by decide) (by decide))

/-! ## Claim C1 -/

theorem wrap64_add_right (a s : Nat) : wrap64 (a + wrap64 s) = wrap64 (a + s) := by
  simp only [wrap64]
  omega

theorem sentAmt_eq_nonFailed_sum (htlcs : List HTLCAttempt) :
    (sentAmtFees htlcs).1 =
      wrap64 ((nonFailedHTLCs htlcs).map (fun a => a.info.route.receiverAmt)).sum := by
  induction htlcs with
  | nil => simp [sentAmtFees, nonFailedHTLCs, wrap64]
  | cons x xs ih =>
    cases hf : x.failure with
    | none =>
      simp [sentAmtFees, nonFailedHTLCs, hf, ih, List.filter_cons, wrap64_add_right]
    | some f => simp [sentAmtFees, nonFailedHTLCs, hf, ih, List.filter_cons]

theorem commitFetch_inv {p : KVPaymentDB} {h : Hash} {b' : PaymentBucket}
    (hInv : InvDB p.db) : InvDB (commitFetch p h b').2.db := by
  unfold commitFetch
  split
  · exact hInv
  · next pm' hpm' =>
    intro kv hkv
    rcases mem_aput hkv with rfl | hmem
    · exact fetchPayment_ok_bucketOK hpm'
    · exact hInv kv hmem

theorem initPayment_inv (p : KVPaymentDB) (h : Hash) (i : PaymentCreationInfo)
    (hInv : InvDB p.db) : InvDB (InitPayment p h i).2.db := by
  have hInv1 : InvDB (nextPaymentSequence p).2.db := by
    intro kv hkv
    rw [nps_payments] at hkv
    exact hInv kv hkv
  simp only [InitPayment]
  split
  · split
    · exact hInv1
    · intro kv hkv
      rcases mem_aput hkv with rfl | hmem
      · simp [BucketOK, bucketHTLCList, sentAmtFees]
      · exact hInv1 kv hmem
  · split
    · intro kv hkv
      rcases mem_aput hkv with rfl | hmem
      · simp [BucketOK, bucketHTLCList, sentAmtFees]
      · exact hInv1 kv hmem
    · exact hInv1

theorem registerAttempt_inv (p : KVPaymentDB) (h : Hash) (att : HTLCAttemptInfo)
    (hInv : InvDB p.db) : InvDB (RegisterAttempt p h att).2.db := by
  simp only [RegisterAttempt]
  repeat' split
  all_goals first
    | exact hInv
    | exact commitFetch_inv hInv

theorem updateHtlcKey_inv (p : KVPaymentDB) (h : Hash) (aid : Nat)
    (upd : HtlcUpdate) (hInv : InvDB p.db) : InvDB (updateHtlcKey p h aid upd).2.db := by
  simp only [updateHtlcKey]
  repeat' split
  all_goals first
    | exact hInv
    | exact commitFetch_inv hInv

theorem failPayment_inv (p : KVPaymentDB) (h : Hash) (r : FailureReason)
    (hInv : InvDB p.db) : InvDB (FailPayment p h r).2.db := by
  simp only [FailPayment]
  repeat' split
  all_goals first
    | exact hInv
    | exact commitFetch_inv hInv

theorem registerAttempt_ok_value {p : KVPaymentDB} {h : Hash}
    {att : HTLCAttemptInfo} {b : PaymentBucket} {pm : MPPayment}
    (hb : alookup h p.db.payments = some b) (hpm : fetchPayment b = .ok pm)
    (hok : (RegisterAttempt p h att).1.isOk = true) :
    wrap64 ((sentAmtFees pm.htlcs).1 + att.route.receiverAmt) ≤ pm.info.value := by
  simp only [RegisterAttempt, hb, hpm] at hok
  repeat' split at hok
  all_goals first
    | exact Bool.noConfusion hok
    | next hnlt => exact Nat.le_of_not_lt hnlt

theorem registerAttempt_valueExceeds {p : KVPaymentDB} {h : Hash}
    {att : HTLCAttemptInfo} {b : PaymentBucket} {pm : MPPayment}
    (hb : alookup h p.db.payments = some b) (hpm : fetchPayment b = .ok pm)
    (hreg : pm.Registrable = .ok ())
    (hguard : (!att.route.finalHop.encryptedData.isEmpty &&
      att.route.finalHop.mpp.isSome) = false)
    (hchk : checkShards (!att.route.finalHop.encryptedData.isEmpty)
      att.route.finalHop (inFlightHTLCs pm.htlcs) = .ok ())
    (hvguard : (!(!att.route.finalHop.encryptedData.isEmpty) &&
      att.route.finalHop.mpp.isNone &&
      (att.route.receiverAmt != pm.info.value)) = false)
    (hlt : pm.info.value < wrap64 ((sentAmtFees pm.htlcs).1 + att.route.receiverAmt)) :
    RegisterAttempt p h att = (.error .valueExceedsAmt, p) := by
  simp only [RegisterAttempt, hb, hpm, hreg, hguard, Bool.false_eq_true, if_false,
    hchk, hvguard, if_pos hlt]

/-- Claim C1 counterexample: the source's bounded-value check
`sentAmt+amt > payment.Info.Value` adds `uint64` milli-satoshis, which wrap.
On a value-100 payment with a 60-msat MPP shard in flight, a matching-MPP
attempt of 2^64 - 30 msat makes the mathematical non-failed sum plus the new
amount exceed the value, yet the check computes the wrapped sum 30, passes,
the call succeeds and the attempt is persisted: the committed record's
mathematical sum of receiver amounts (2^64 + 30) exceeds its value 100.
Separately, on a fresh payment of value 100 a non-MPP attempt of 150 is
rejected with the value-mismatch error, not value-exceeds-amount. -/
theorem registerAttempt_value_exceeds_cex :
    exInfo.value <
      ((nonFailedHTLCs (exPmOf exBucketMPP).htlcs).map
        (fun a => a.info.route.receiverAmt)).sum + exAttHuge.route.receiverAmt ∧
    (RegisterAttempt (mkStore exBucketMPP) 7 exAttHuge).1.isOk = true ∧
    exInfo.value <
      ((nonFailedHTLCs (bucketHTLCList
        ((alookup 7
          (RegisterAttempt (mkStore exBucketMPP) 7 exAttHuge).2.db.payments).getD
          exBucketMPP))).map (fun a => a.info.route.receiverAmt)).sum ∧
    RegisterAttempt (mkStore exBucketInitiated) 7 (exAtt 1 150 none) =
      (.error .valueMismatch, mkStore exBucketInitiated) ∧
    (Except.error Err.valueMismatch : Except Err MPPayment) ≠
      .error .valueExceedsAmt := by decide

/-- Claim C1 (amended): what `SentAmt` computes is the `uint64` (mod-2^64)
sum of `ReceiverAmt` over the non-failed HTLC attempts, and it is this
wrapped sum — not the mathematical one, which the wrap counterexample pushes
past the value — that never exceeds the payment's value after any committed
operation: every mutating operation preserves the store-wide invariant; and
every `RegisterAttempt` whose wrapped current sum plus new receiver amount
(again mod 2^64, as the source adds them) exceeds the payment value fails
and leaves the store unchanged, with exactly the value-exceeds-amount error
when the registrability, shard-compatibility and exact-value checks all pass
(otherwise one of those checks reports its own error first, as in the
counterexample). -/
theorem payment_value_bound :
    (∀ htlcs : List HTLCAttempt, (sentAmtFees htlcs).1 =
      wrap64 ((nonFailedHTLCs htlcs).map (fun a => a.info.route.receiverAmt)).sum) ∧
    (∀ (p : KVPaymentDB) (op : Op), InvDB p.db → InvDB (applyOp p op).db) ∧
    (∀ (p : KVPaymentDB) (h : Hash) (att : HTLCAttemptInfo) (b : PaymentBucket)
      (pm : MPPayment),
      alookup h p.db.payments = some b → fetchPayment b = .ok pm →
      pm.info.value < wrap64 ((sentAmtFees pm.htlcs).1 + att.route.receiverAmt) →
      ((RegisterAttempt p h att).1.isOk = false ∧
       (RegisterAttempt p h att).2 = p)) ∧
    (∀ (p : KVPaymentDB) (h : Hash) (att : HTLCAttemptInfo) (b : PaymentBucket)
      (pm : MPPayment),
      alookup h p.db.payments = some b → fetchPayment b = .ok pm →
      pm.Registrable = .ok () →
      (!att.route.finalHop.encryptedData.isEmpty &&
        att.route.finalHop.mpp.isSome) = false →
      checkShards (!att.route.finalHop.encryptedData.isEmpty)
        att.route.finalHop (inFlightHTLCs pm.htlcs) = .ok () →
      (!(!att.route.finalHop.encryptedData.isEmpty) &&
        att.route.finalHop.mpp.isNone &&
        (att.route.receiverAmt != pm.info.value)) = false →
      pm.info.value < wrap64 ((sentAmtFees pm.htlcs).1 + att.route.receiverAmt) →
      RegisterAttempt p h att = (.error .valueExceedsAmt, p)) := by
  refine ⟨sentAmt_eq_nonFailed_sum, ?_, ?_, ?_⟩
  · intro p op hInv
    cases op with
    | initOp h i => exact initPayment_inv p h i hInv
    | registerOp h a => exact registerAttempt_inv p h a hInv
    | settleOp h id s => exact updateHtlcKey_inv p h id (.settle s) hInv
    | failAttemptOp h id f => exact updateHtlcKey_inv p h id (.fail f) hInv
    | failPaymentOp h r => exact failPayment_inv p h r hInv
  · intro p h att b pm hb hpm hlt
    have hnotok : (RegisterAttempt p h att).1.isOk = false := by
      cases hx : (RegisterAttempt p h att).1.isOk
      · rfl
      · exact absurd (registerAttempt_ok_value hb hpm hx) (Nat.not_le.mpr hlt)
    refine ⟨hnotok, ?_⟩
    rcases registerAttempt_frame p h att with hf | hf
    · exact hf
    · rw [hnotok] at hf
      exact absurd hf (by decide)
  · intro p h att b pm hb hpm hreg hguard hchk hvguard hlt
    exact registerAttempt_valueExceeds hb hpm hreg hguard hchk hvguard hlt

/-- Claim C1 witness: an MPP shard of 50 on a payment of value 100 with 60
already in flight is rejected with exactly the value-exceeds-amount error,
the store is unchanged, and the committed-state invariant holds after the
operation on a concrete store. -/
theorem payment_value_bound_witness :
    InvDB (applyOp (mkStore exBucketMPP)
      (.registerOp 7 (exAtt 2 50 (some exMPPA)))).db ∧
    RegisterAttempt (mkStore exBucketMPP) 7 (exAtt 2 50 (some exMPPA)) =
      (.error .valueExceedsAmt, mkStore exBucketMPP) :=
  ⟨payment_value_bound.2.1 (mkStore exBucketMPP)
    (.registerOp 7 (exAtt 2 50 (some exMPPA))) (by decide),
   payment_value_bound.2.2.2 (mkStore exBucketMPP) 7 (exAtt 2 50 (some exMPPA))
    exBucketMPP (exPmOf exBucketMPP) (by decide) (by decide) (by decide)
    (by decide) (by decide) (by decide) (by decide)⟩
